import Mathlib

/-!
# SLANDS landing page: portfolio carousel and viewport-gated video playback

A shallow embedding of the `PortfolioCarousel` controller of `main.js`, of the
carousel and observer callbacks of `script.js`, and of the observer callbacks of
`video.js`.

* CSS state classes (`active`, `prev`, `expanded`, `indicator`) are Boolean flags,
  `classList.add` / `classList.remove` set / unset the flag.
* The browser timer table is explicit: `setInterval` / `setTimeout` allocate a fresh
  positive handle and register a timer, `clearInterval` removes the timer carrying
  the handle, handles are never reused.
* An uncaught `TypeError` is `Except.error`, carrying the state at the throw.
* JavaScript numbers are IEEE 754 doubles. A number is the rational it denotes, and
  every addition and division rounds the exact result to the nearest double, ties to
  even.
-/

namespace Slands

/-! ## Data model of `main.js` -/

/-- One `.portfolioCard`: the classes `active` and `prev`, and the optional
`.pTextContainer` child with its `expanded` class (`none`: no such child). -/
structure Card where
  active : Bool
  prev : Bool
  textContainer : Option Bool
  deriving DecidableEq, Repr

/-- One child of `.carousel-indicators`: the classes `indicator` and `active`, and the
attributes `data-index`, `aria-label`, `data-testid`. -/
structure Button where
  indicator : Bool
  active : Bool
  dataIndex : Option String
  ariaLabel : Option String
  testid : Option String
  deriving DecidableEq, Repr

/-- What a registered timer runs: the auto-advance interval (`goToNext`), the
progress interval with its closure variables `progress` and `increment`, or the
600 ms timeout of `goToSlide`. -/
inductive TimerKind where
  | autoAdvance
  | progress (value : ℚ) (increment : ℚ)
  | prevTimeout
  deriving DecidableEq

/-- A live entry of the browser timer table. -/
structure Timer where
  id : Nat
  kind : TimerKind
  deriving DecidableEq

/-- Whether a timer is the auto-advance interval. -/
def TimerKind.isAuto : TimerKind → Bool
  | .autoAdvance => true
  | _ => false

/-- Whether a timer is a progress interval. -/
def TimerKind.isProgress : TimerKind → Bool
  | .progress _ _ => true
  | _ => false

/-- The parts of the page read by the constructor of `main.js`. Elements of class
`indicator` are taken to be children of `.carousel-indicators`. -/
structure Dom where
  cards : List Card
  indicatorContainer : Option (List Button)
  progressFill : Option ℚ
  deriving DecidableEq

/-- The fields of a `PortfolioCarousel` of `main.js` together with the elements it
holds and the browser timer table. `progressFill` is the width in percent of
`.progress-fill` (`none`: no such element). -/
structure Carousel where
  currentIndex : Nat
  cards : List Card
  indicators : List Button
  progressFill : Option ℚ
  autoAdvanceInterval : Option Nat
  progressInterval : Option Nat
  autoAdvanceDelay : Nat
  isPaused : Bool
  nextTimerId : Nat
  timers : List Timer
  deriving DecidableEq

/-! ## Browser primitives -/

/-- JavaScript truthiness of a timer handle field: `null` and `0` are falsy. -/
def truthy : Option Nat → Bool
  | some (_ + 1) => true
  | _ => false

/-- `clearInterval(h)`: the timer carrying handle `h`, if any, is removed. -/
def clearInterval (h : Option Nat) (s : Carousel) : Carousel :=
  match h with
  | some id => { s with timers := s.timers.filter (fun t => t.id != id) }
  | none => s

/-- `setInterval` / `setTimeout`: registers a timer under a fresh handle, returned
with the new state. -/
def setTimer (k : TimerKind) (s : Carousel) : Nat × Carousel :=
  (s.nextTimerId,
    { s with nextTimerId := s.nextTimerId + 1,
             timers := s.timers ++ [{ id := s.nextTimerId, kind := k }] })

/-! ## JavaScript numbers

A finite double is the rational it denotes. `Infinity` and `NaN` are not modelled: the
numbers of the progress bar stay between 0 and 128, and the delay is not 0. -/

/-- The number of binary digits of `n`, with `fuel` at least that number. -/
def bitLength : Nat → Nat → Nat
  | 0, _ => 0
  | fuel + 1, n => if n = 0 then 0 else bitLength fuel (n / 2) + 1

/-- The power `2 ^ e` for an integer exponent. -/
def pow2 (e : Int) : ℚ :=
  if 0 ≤ e then ((2 ^ e.toNat : Nat) : ℚ) else 1 / ((2 ^ (-e).toNat : Nat) : ℚ)

/-- The binary exponent of a positive rational: the `e` with `2 ^ e ≤ x < 2 ^ (e + 1)`. -/
def floorLog2 (x : ℚ) : Int :=
  let d : Int :=
    (bitLength x.num.natAbs x.num.natAbs : Int) - (bitLength x.den x.den : Int)
  if pow2 d ≤ x then d else d - 1

/-- Rounding to the nearest integer, a tie going to the even one. -/
def roundHalfEven (y : ℚ) : Int :=
  let f := Rat.floor y
  let r := y - (f : ℚ)
  if r < 1 / 2 then f
  else if 1 / 2 < r then f + 1
  else if f % 2 = 0 then f else f + 1

/-- Rounding of an exact result to the nearest double (53 significant bits, exponent at
least `-1022`), a tie going to the even significand. -/
def roundDouble (x : ℚ) : ℚ :=
  if x = 0 then 0
  else
    let a := |x|
    let e := max (floorLog2 a) (-1022)
    let q := pow2 (e - 52)
    let m := (roundHalfEven (a / q) : ℚ) * q
    if x < 0 then -m else m

/-- The operator `+` of JavaScript on two numbers. -/
def doubleAdd (x y : ℚ) : ℚ :=
  roundDouble (x + y)

/-- The operator `/` of JavaScript on two numbers. -/
def doubleDiv (x y : ℚ) : ℚ :=
  roundDouble (x / y)

/-- The constant `increment` of `startProgress()`: `100 / (this.autoAdvanceDelay / 100)`.
The delay is a natural number a double holds exactly (it is 9000). -/
def increment (delay : Nat) : ℚ :=
  doubleDiv 100 (doubleDiv (delay : ℚ) 100)

/-! ## Methods of `PortfolioCarousel` (`main.js`) -/

/-- `resetProgress()`. -/
def resetProgress (s : Carousel) : Carousel :=
  let s1 := if truthy s.progressInterval then clearInterval s.progressInterval s else s
  { s1 with progressFill := s1.progressFill.map (fun _ => 0) }

/-- `startProgress()`: `increment = 100 / (autoAdvanceDelay / 100)`, `progress = 0`. -/
def startProgress (s : Carousel) : Carousel :=
  let r := setTimer (.progress 0 (increment s.autoAdvanceDelay)) s
  { r.2 with progressInterval := some r.1 }

/-- `startAutoAdvance()`. -/
def startAutoAdvance (s : Carousel) : Carousel :=
  let r := setTimer .autoAdvance (startProgress (resetProgress s))
  { r.2 with autoAdvanceInterval := some r.1 }

/-- The block `if (this.autoAdvanceInterval) { clearInterval(...); ... = null; }`. -/
def stopAuto (s : Carousel) : Carousel :=
  if truthy s.autoAdvanceInterval then
    { clearInterval s.autoAdvanceInterval s with autoAdvanceInterval := none }
  else s

/-- The block `if (this.progressInterval) { clearInterval(...); ... = null; }`. -/
def stopProgress (s : Carousel) : Carousel :=
  if truthy s.progressInterval then
    { clearInterval s.progressInterval s with progressInterval := none }
  else s

/-- `pauseAutoAdvance()`. -/
def pauseAutoAdvance (s : Carousel) : Carousel :=
  stopProgress (stopAuto { s with isPaused := true })

/-- `tempPauseAutoAdvance()`. -/
def tempPauseAutoAdvance (s : Carousel) : Carousel :=
  stopProgress (stopAuto s)

/-- `resumeAutoAdvance()`. -/
def resumeAutoAdvance (s : Carousel) : Carousel :=
  let s1 := if !s.isPaused then startAutoAdvance (pauseAutoAdvance s) else s
  { s1 with isPaused := false }

/-- The optional chain `card.querySelector('.pTextContainer')?.classList.remove('expanded')`. -/
def Card.collapse (c : Card) : Card :=
  { c with textContainer := c.textContainer.map (fun _ => false) }

/-- `classList.add('expanded')` / `classList.remove('expanded')` on the `.pTextContainer`
of a card that has one. -/
def Card.setExpanded (e : Bool) (c : Card) : Card :=
  { c with textContainer := some e }

/-- `classList.remove('active')` then `classList.add('prev')` on a card. -/
def Card.leave (c : Card) : Card :=
  { c with active := false, prev := true }

/-- `classList.add('active')` on a card. -/
def Card.enter (c : Card) : Card :=
  { c with active := true }

/-- `classList.remove('prev')` on a card. -/
def Card.clearPrev (c : Card) : Card :=
  { c with prev := false }

/-- `classList.add('active')` (`true`) / `classList.remove('active')` (`false`) on an
indicator. -/
def Button.setActive (a : Bool) (b : Button) : Button :=
  { b with active := a }

/-- `goToSlide(index)`. Reading `classList` of `this.cards[index]` when `index` is not a
card position throws; the state at the throw is returned as the error. -/
def goToSlide (index : Nat) (s : Carousel) : Except Carousel Carousel :=
  if s.currentIndex < s.cards.length then
    let s1 := { s with cards := s.cards.map Card.collapse }
    let s2 := { s1 with cards := s1.cards.modify Card.leave s1.currentIndex }
    let s3 := (setTimer .prevTimeout s2).2
    let s4 := { s3 with currentIndex := index }
    if index < s4.cards.length then
      let s5 := { s4 with cards := s4.cards.modify Card.enter s4.currentIndex }
      let s6 := { s5 with indicators := s5.indicators.map (Button.setActive false) }
      let s7 := { s6 with indicators :=
                    s6.indicators.modify (Button.setActive true) s6.currentIndex }
      .ok (resumeAutoAdvance (resetProgress s7))
    else .error s4
  else .ok s

/-- The index computed by `goToNext`: `(currentIndex + 1) % cards.length`. -/
def nextIndex (s : Carousel) : Nat :=
  (s.currentIndex + 1) % s.cards.length

/-- The index computed by `goToPrevious`: `(currentIndex - 1 + cards.length) % cards.length`,
with the truncating remainder of JavaScript on integers. -/
def prevIndex (s : Carousel) : Nat :=
  (Int.tmod ((s.currentIndex : Int) - 1 + (s.cards.length : Int)) (s.cards.length : Int)).toNat

/-- `goToNext()`. -/
def goToNext (s : Carousel) : Except Carousel Carousel :=
  goToSlide (nextIndex s) s

/-- `goToPrevious()`. -/
def goToPrevious (s : Carousel) : Except Carousel Carousel :=
  goToSlide (prevIndex s) s

/-- The state the page is left in once a handler has returned or thrown. -/
def settle (r : Except Carousel Carousel) : Carousel :=
  match r with
  | .ok s => s
  | .error s => s

/-- The `toggle` closure of `initDetailsToggle` for the card at position `i`; a card
without `.pTextContainer` gets no listener. -/
def toggle (i : Nat) (s : Carousel) : Carousel :=
  match s.cards[i]? with
  | none => s
  | some card =>
    match card.textContainer with
    | none => s
    | some isOpen =>
      if isOpen then
        resumeAutoAdvance { s with cards := s.cards.modify (Card.setExpanded false) i }
      else
        pauseAutoAdvance { s with cards := s.cards.modify (Card.setExpanded true) i }

/-- The test `isExpanded` of the hover handlers; `none` when `this.cards[currentIndex]`
is undefined and the handler throws. -/
def isExpanded (s : Carousel) : Option Bool :=
  match s.cards[s.currentIndex]? with
  | none => none
  | some card => some (card.textContainer == some true)

/-- The `mouseenter` listener of `initHoverPause`. -/
def mouseenter (s : Carousel) : Except Carousel Carousel :=
  match isExpanded s with
  | none => .error s
  | some e => if !e then .ok (tempPauseAutoAdvance s) else .ok s

/-- The `mouseleave` listener of `initHoverPause`. -/
def mouseleave (s : Carousel) : Except Carousel Carousel :=
  match isExpanded s with
  | none => .error s
  | some e => if !e then .ok (resumeAutoAdvance s) else .ok s

/-- One run of the callback of `startProgress` on its closure variable:
`progress += increment; if (progress >= 100) progress = 100;`. -/
def progressStep (value increment : ℚ) : ℚ :=
  let p := doubleAdd value increment
  if p ≥ 100 then 100 else p

/-- The closure variable `progress` after `n` runs of the callback of `startProgress`. -/
def progressAfter (delay : Nat) : Nat → ℚ
  | 0 => 0
  | n + 1 => progressStep (progressAfter delay n) (increment delay)

/-- The callback of the timer with handle `id` runs once. -/
def fire (id : Nat) (s : Carousel) : Except Carousel Carousel :=
  match s.timers.find? (fun t => t.id == id) with
  | none => .ok s
  | some t =>
    match t.kind with
    | .autoAdvance => goToNext s
    | .progress v inc =>
      .ok { s with
        timers := s.timers.map (fun u =>
          if u.id == id then { u with kind := .progress (progressStep v inc) inc } else u),
        progressFill := s.progressFill.map (fun _ => progressStep v inc) }
    | .prevTimeout =>
      let s1 := { s with timers := s.timers.filter (fun u => u.id != id) }
      if s1.currentIndex < s1.cards.length then
        .ok { s1 with cards := s1.cards.modify Card.clearPrev s1.currentIndex }
      else .error s1

/-- The indicator button appended by the constructor for position `i`. -/
def newIndicator (i : Nat) : Button :=
  { indicator := true,
    active := false,
    dataIndex := some (toString i),
    ariaLabel := some ("Go to slide " ++ toString (i + 1)),
    testid := some ("indicator-" ++ toString i) }

/-- The children of `.carousel-indicators` after the synthesis loop of the constructor. -/
def synthesize (children : List Button) (n : Nat) : List Button :=
  if children.length < n then
    children ++ (List.range' children.length (n - children.length)).map newIndicator
  else children

/-- The fields assigned by the constructor of `main.js` before `init()` is reached. -/
def constructFields (d : Dom) : Carousel :=
  { currentIndex := 0,
    cards := d.cards,
    indicators :=
      ((d.indicatorContainer.map (fun ch => synthesize ch d.cards.length)).getD []).filter
        (fun b => b.indicator),
    progressFill := d.progressFill,
    autoAdvanceInterval := none,
    progressInterval := none,
    autoAdvanceDelay := 9000,
    isPaused := false,
    nextTimerId := 1,
    timers := [] }

/-- `new PortfolioCarousel()` of `main.js`: `init()` runs when there is a card; it
registers the listeners and calls `startAutoAdvance()`. -/
def construct (d : Dom) : Carousel :=
  if (constructFields d).cards.length ≠ 0 then startAutoAdvance (constructFields d)
  else constructFields d

/-- What can happen to a controller: clicks on the navigation buttons, on the indicator
at a position, on the details buttons of a card, pointer events on the container, a
timer callback, and direct calls of the methods. -/
inductive Op where
  | goToSlide (k : Nat)
  | goToNext
  | goToPrevious
  | toggle (i : Nat)
  | pauseAutoAdvance
  | tempPauseAutoAdvance
  | resumeAutoAdvance
  | mouseenter
  | mouseleave
  | tick (id : Nat)
  deriving DecidableEq

/-- The state after one operation. -/
def Op.apply (o : Op) (s : Carousel) : Carousel :=
  match o with
  | .goToSlide k => settle (Slands.goToSlide k s)
  | .goToNext => settle (Slands.goToNext s)
  | .goToPrevious => settle (Slands.goToPrevious s)
  | .toggle i => Slands.toggle i s
  | .pauseAutoAdvance => Slands.pauseAutoAdvance s
  | .tempPauseAutoAdvance => Slands.tempPauseAutoAdvance s
  | .resumeAutoAdvance => Slands.resumeAutoAdvance s
  | .mouseenter => settle (Slands.mouseenter s)
  | .mouseleave => settle (Slands.mouseleave s)
  | .tick id => settle (fire id s)

/-- The state after a sequence of operations, in order. -/
def run (ops : List Op) (s : Carousel) : Carousel :=
  ops.foldl (fun st o => o.apply st) s

/-- Whether an operation calls `goToNext` in a state: the next button, or the callback
of a live auto-advance interval. -/
def Op.firesGoToNext (o : Op) (s : Carousel) : Bool :=
  match o with
  | .goToNext => true
  | .tick id =>
    match s.timers.find? (fun t => t.id == id) with
    | some t => t.kind.isAuto
    | none => false
  | _ => false

/-- The live auto-advance intervals. -/
def autoTimers (s : Carousel) : List Timer :=
  s.timers.filter (fun t => t.kind.isAuto)

/-- The live progress intervals. -/
def progressTimers (s : Carousel) : List Timer :=
  s.timers.filter (fun t => t.kind.isProgress)

/-- The timer table is owned by the controller: handles are positive, below the next
fresh handle and pairwise distinct, every live auto-advance interval is the one
named by `autoAdvanceInterval` and every live progress interval the one named by
`progressInterval`. -/
structure TimersOwned (s : Carousel) : Prop where
  nextPos : 0 < s.nextTimerId
  pos : ∀ t ∈ s.timers, 0 < t.id
  fresh : ∀ t ∈ s.timers, t.id < s.nextTimerId
  nodup : (s.timers.map (fun t => t.id)).Nodup
  auto : ∀ t ∈ s.timers, t.kind.isAuto = true → s.autoAdvanceInterval = some t.id
  prog : ∀ t ∈ s.timers, t.kind.isProgress = true → s.progressInterval = some t.id
  autoHandle : ∀ h, s.autoAdvanceInterval = some h → 0 < h
  progHandle : ∀ h, s.progressInterval = some h → 0 < h

/-- The closure variable `progress` of the interval named by `progressInterval`. -/
def progressValue (s : Carousel) : Option ℚ :=
  match s.progressInterval with
  | none => none
  | some h =>
    match s.timers.find? (fun t => t.id == h) with
    | some t =>
      match t.kind with
      | .progress v _ => some v
      | _ => none
    | none => none

/-- The events of the carousel container and of the timers: pointer-enter, pointer-leave
and timer callbacks. -/
def Op.isHoverOrTick : Op → Bool
  | .mouseenter => true
  | .mouseleave => true
  | .tick _ => true
  | _ => false

/-- The sticky pause of an expanded details panel on the current card `c`: the
controller is paused, the panel of card `c` is expanded, and neither an auto-advance nor
a progress interval is live in the owned timer table. -/
structure StickyPaused (c : Nat) (s : Carousel) : Prop where
  owned : TimersOwned s
  paused : s.isPaused = true
  index : s.currentIndex = c
  expanded : ∃ card, s.cards[c]? = some card ∧ card.textContainer = some true
  noAuto : ∀ t ∈ s.timers, t.kind.isAuto = false
  noProg : ∀ t ∈ s.timers, t.kind.isProgress = false

/-- The entry registered by `startProgress()` on `s`, with the closure variable
`progress` at `v`. -/
def progressTimer (s : Carousel) (v : ℚ) : Timer :=
  { id := s.nextTimerId, kind := .progress v (increment s.autoAdvanceDelay) }

/-- The controller after `startProgress()` on `s` and some callbacks of the interval it
started: the closure variable `progress` holds `v` and `.progress-fill` has width
`fill`. -/
def progressTicked (s : Carousel) (v : ℚ) (fill : Option ℚ) : Carousel :=
  { s with
    nextTimerId := s.nextTimerId + 1,
    timers := s.timers ++ [progressTimer s v],
    progressInterval := some s.nextTimerId,
    progressFill := fill }

/-- A page with two cards, the first active, both with a collapsed details panel, two
indicator buttons and a progress bar. -/
def demoDom : Dom :=
  { cards := [{ active := true, prev := false, textContainer := some false },
              { active := false, prev := false, textContainer := some false }],
    indicatorContainer := some [newIndicator 0, newIndicator 1],
    progressFill := some 0 }

/-! ## Video playback (`script.js`, `video.js`) -/

/-- A `.portfolioVid` element: the `paused` attribute and the playback position.
`play()` clears `paused` (playback is taken to be allowed), `pause()` sets it. -/
structure VideoEl where
  paused : Bool
  currentTime : ℚ
  deriving DecidableEq

/-- `video.play()`. -/
def VideoEl.play (v : VideoEl) : VideoEl :=
  { v with paused := false }

/-- `video.pause(); video.currentTime = 0;`. -/
def VideoEl.pauseAndRewind (v : VideoEl) : VideoEl :=
  { v with paused := true, currentTime := 0 }

/-- An `IntersectionObserverEntry` of the observed `.video-container`. -/
structure Entry where
  isIntersecting : Bool
  intersectionRatio : ℚ
  deriving DecidableEq

/-- The video of one card on a narrow viewport together with its `.video-overlay`:
`overlayHidden` stands for `overlay.style.display === 'none'`. -/
structure MobileBinding where
  video : VideoEl
  overlayHidden : Bool
  deriving DecidableEq

namespace ScriptJs

/-- The fields of a `PortfolioCarousel` of `script.js`. -/
structure Carousel where
  cards : List Card
  currentIndex : Nat
  isMobile : Bool
  deriving DecidableEq

/-- The body of the desktop observer callback of `initVideos` for one entry. -/
def desktopEntry (index : Nat) (c : Carousel) (v : VideoEl) (e : Entry) : VideoEl :=
  if e.isIntersecting && index == c.currentIndex then v.play else v.pauseAndRewind

/-- The desktop observer callback of `initVideos` for the card at `index`. -/
def desktopObserver (index : Nat) (c : Carousel) (entries : List Entry) (v : VideoEl) :
    VideoEl :=
  entries.foldl (desktopEntry index c) v

/-- The `click` listener of the overlay. -/
def overlayClick (b : MobileBinding) : MobileBinding :=
  { video := b.video.play, overlayHidden := true }

/-- The body of the mobile observer callback of `initVideos` for one entry. -/
def mobileEntry (index : Nat) (c : Carousel) (b : MobileBinding) (e : Entry) :
    MobileBinding :=
  if !e.isIntersecting || index != c.currentIndex then
    { video := b.video.pauseAndRewind, overlayHidden := false }
  else b

/-- The mobile observer callback of `initVideos` for the card at `index`. -/
def mobileObserver (index : Nat) (c : Carousel) (entries : List Entry) (b : MobileBinding) :
    MobileBinding :=
  entries.foldl (mobileEntry index c) b

end ScriptJs

namespace VideoJs

/-- `getCurrentIndex()`: the position in `cards` of the first card carrying `active`,
or `0` when `document.querySelector('.portfolioCard.active')` finds none. -/
def getCurrentIndex (cards : List Card) : Nat :=
  if cards.any (fun c => c.active) then cards.findIdx (fun c => c.active) else 0

/-- The body of the desktop observer callback for one entry. -/
def desktopEntry (index : Nat) (cards : List Card) (v : VideoEl) (e : Entry) : VideoEl :=
  if e.isIntersecting && index == getCurrentIndex cards then v.play else v.pauseAndRewind

/-- The desktop observer callback for the card at `index`. -/
def desktopObserver (index : Nat) (cards : List Card) (entries : List Entry) (v : VideoEl) :
    VideoEl :=
  entries.foldl (desktopEntry index cards) v

/-- The `click` listener of the overlay. -/
def overlayClick (b : MobileBinding) : MobileBinding :=
  { video := b.video.play, overlayHidden := true }

/-- The body of the mobile observer callback for one entry. -/
def mobileEntry (index : Nat) (cards : List Card) (b : MobileBinding) (e : Entry) :
    MobileBinding :=
  if !e.isIntersecting || index != getCurrentIndex cards then
    { video := b.video.pauseAndRewind, overlayHidden := false }
  else b

/-- The mobile observer callback for the card at `index`. -/
def mobileObserver (index : Nat) (cards : List Card) (entries : List Entry)
    (b : MobileBinding) : MobileBinding :=
  entries.foldl (mobileEntry index cards) b

end VideoJs

/-! ## Carousel and videos together -/

/-- `classList.remove('active')` on a card. -/
def Card.deactivate (c : Card) : Card :=
  { c with active := false }

namespace ScriptJs

/-- `go(index)` of `script.js`. The two `if`s normalise `index`; reading `classList` of an
undefined card throws, and the state at the throw is returned as the error. -/
def go (index : Int) (c : Carousel) : Except Carousel Carousel :=
  let i1 : Int := if index < 0 then (c.cards.length : Int) - 1 else index
  let i2 : Int := if i1 ≥ (c.cards.length : Int) then 0 else i1
  if c.currentIndex < c.cards.length then
    let c1 := { c with cards := c.cards.modify Card.deactivate c.currentIndex }
    let c2 := { c1 with currentIndex := i2.toNat }
    if 0 ≤ i2 ∧ c2.currentIndex < c2.cards.length then
      .ok { c2 with cards := c2.cards.modify Card.enter c2.currentIndex }
    else .error c2
  else .error c

/-- The carousel a handler leaves behind, whether it returned or threw. -/
def settle (r : Except Carousel Carousel) : Carousel :=
  match r with
  | .ok c => c
  | .error c => c

/-- The desktop page of `script.js`: the carousel and the video of every card, by card
position. -/
structure Page where
  carousel : Carousel
  videos : List VideoEl
  deriving DecidableEq

/-- What happens on the desktop page: a call of `go`, a click on the previous or next
button, or the observer callback of the card at a position with a batch of entries. -/
inductive Step where
  | go (index : Int)
  | prev
  | next
  | observe (i : Nat) (entries : List Entry)
  deriving DecidableEq

/-- Whether a step is the observer callback of the card at position `i`. -/
def Step.observes (i : Nat) : Step → Bool
  | .observe j _ => j == i
  | _ => false

/-- The page after one step. -/
def Step.apply (st : Step) (p : Page) : Page :=
  match st with
  | .go index => { p with carousel := settle (ScriptJs.go index p.carousel) }
  | .prev =>
    { p with carousel := settle (ScriptJs.go ((p.carousel.currentIndex : Int) - 1) p.carousel) }
  | .next =>
    { p with carousel := settle (ScriptJs.go ((p.carousel.currentIndex : Int) + 1) p.carousel) }
  | .observe i entries =>
    { p with videos := p.videos.modify (desktopObserver i p.carousel entries) i }

/-- The page after a sequence of steps, in order. -/
def runSteps (steps : List Step) (p : Page) : Page :=
  steps.foldl (fun q st => st.apply q) p

/-- A desktop page with two cards, the first active, both videos paused at the start. -/
def demoPage : Page :=
  { carousel := { cards := demoDom.cards, currentIndex := 0, isMobile := false },
    videos := [{ paused := true, currentTime := 0 }, { paused := true, currentTime := 0 }] }

end ScriptJs

namespace VideoJs

/-- The desktop page of `main.js` with `video.js`: the controller of `main.js` and the
video of every card, by card position. -/
structure Page where
  carousel : Slands.Carousel
  videos : List VideoEl
  deriving DecidableEq

/-- What happens on the desktop page: an operation of the controller of `main.js`, or the
observer callback of the card at a position with a batch of entries. -/
inductive Step where
  | op (o : Op)
  | observe (i : Nat) (entries : List Entry)
  deriving DecidableEq

/-- Whether a step is the observer callback of the card at position `i`. -/
def Step.observes (i : Nat) : Step → Bool
  | .observe j _ => j == i
  | _ => false

/-- The page after one step. -/
def Step.apply (st : Step) (p : Page) : Page :=
  match st with
  | .op o => { p with carousel := o.apply p.carousel }
  | .observe i entries =>
    { p with videos := p.videos.modify (desktopObserver i p.carousel.cards entries) i }

/-- The page after a sequence of steps, in order. -/
def runSteps (steps : List Step) (p : Page) : Page :=
  steps.foldl (fun q st => st.apply q) p

/-- The two-card page right after `new PortfolioCarousel()`, both videos paused at the
start. -/
def demoPage : Page :=
  { carousel := construct demoDom,
    videos := [{ paused := true, currentTime := 0 }, { paused := true, currentTime := 0 }] }

/-- The active index as the specification words it: the position of the first slide
carrying the active marker, or `0` when no slide carries it. -/
def firstActiveOrZero : List Card → Nat
  | [] => 0
  | c :: cs =>
    if c.active then 0
    else if cs.any (fun x => x.active) then firstActiveOrZero cs + 1
    else 0

end VideoJs

/-- A page with one card and two indicator buttons in the markup. -/
def surplusDom : Dom :=
  { cards := [{ active := true, prev := false, textContainer := some false }],
    indicatorContainer := some [newIndicator 0, newIndicator 1],
    progressFill := some 0 }

/-- The clicks and callbacks of the running carousel for a page with `m` indicators:
previous and next button, the indicator at a position below `m`, and timer callbacks. -/
def Op.isUserNav (m : Nat) : Op → Bool
  | .goToPrevious => true
  | .goToNext => true
  | .goToSlide k => decide (k < m)
  | .tick _ => true
  | _ => false

/-! ## Frame lemmas: what the timer methods leave alone -/

section Frame

variable (s : Carousel)

@[simp] theorem clearInterval_currentIndex (h : Option Nat) :
    (clearInterval h s).currentIndex = s.currentIndex := by
  cases h <;> rfl

@[simp] theorem clearInterval_cards (h : Option Nat) :
    (clearInterval h s).cards = s.cards := by
  cases h <;> rfl

@[simp] theorem clearInterval_indicators (h : Option Nat) :
    (clearInterval h s).indicators = s.indicators := by
  cases h <;> rfl

@[simp] theorem clearInterval_progressFill (h : Option Nat) :
    (clearInterval h s).progressFill = s.progressFill := by
  cases h <;> rfl

@[simp] theorem clearInterval_autoAdvanceInterval (h : Option Nat) :
    (clearInterval h s).autoAdvanceInterval = s.autoAdvanceInterval := by
  cases h <;> rfl

@[simp] theorem clearInterval_progressInterval (h : Option Nat) :
    (clearInterval h s).progressInterval = s.progressInterval := by
  cases h <;> rfl

@[simp] theorem clearInterval_autoAdvanceDelay (h : Option Nat) :
    (clearInterval h s).autoAdvanceDelay = s.autoAdvanceDelay := by
  cases h <;> rfl

@[simp] theorem clearInterval_isPaused (h : Option Nat) :
    (clearInterval h s).isPaused = s.isPaused := by
  cases h <;> rfl

@[simp] theorem clearInterval_nextTimerId (h : Option Nat) :
    (clearInterval h s).nextTimerId = s.nextTimerId := by
  cases h <;> rfl

@[simp] theorem resetProgress_currentIndex : (resetProgress s).currentIndex = s.currentIndex := by
  unfold resetProgress; split <;> simp

@[simp] theorem resetProgress_cards : (resetProgress s).cards = s.cards := by
  unfold resetProgress; split <;> simp

@[simp] theorem resetProgress_indicators : (resetProgress s).indicators = s.indicators := by
  unfold resetProgress; split <;> simp

@[simp] theorem resetProgress_isPaused : (resetProgress s).isPaused = s.isPaused := by
  unfold resetProgress; split <;> simp

@[simp] theorem resetProgress_autoAdvanceDelay :
    (resetProgress s).autoAdvanceDelay = s.autoAdvanceDelay := by
  unfold resetProgress; split <;> simp

@[simp] theorem resetProgress_autoAdvanceInterval :
    (resetProgress s).autoAdvanceInterval = s.autoAdvanceInterval := by
  unfold resetProgress; split <;> simp

@[simp] theorem resetProgress_progressInterval :
    (resetProgress s).progressInterval = s.progressInterval := by
  unfold resetProgress; split <;> simp

@[simp] theorem resetProgress_nextTimerId : (resetProgress s).nextTimerId = s.nextTimerId := by
  unfold resetProgress; split <;> simp

@[simp] theorem resetProgress_progressFill :
    (resetProgress s).progressFill = s.progressFill.map (fun _ => 0) := by
  unfold resetProgress; split <;> simp

@[simp] theorem startAutoAdvance_currentIndex :
    (startAutoAdvance s).currentIndex = s.currentIndex := by
  simp [startAutoAdvance, startProgress, setTimer]

@[simp] theorem startAutoAdvance_cards : (startAutoAdvance s).cards = s.cards := by
  simp [startAutoAdvance, startProgress, setTimer]

@[simp] theorem startAutoAdvance_indicators :
    (startAutoAdvance s).indicators = s.indicators := by
  simp [startAutoAdvance, startProgress, setTimer]

@[simp] theorem startAutoAdvance_isPaused : (startAutoAdvance s).isPaused = s.isPaused := by
  simp [startAutoAdvance, startProgress, setTimer]

@[simp] theorem startAutoAdvance_progressFill :
    (startAutoAdvance s).progressFill = s.progressFill.map (fun _ => 0) := by
  simp [startAutoAdvance, startProgress, setTimer]

@[simp] theorem stopAuto_currentIndex : (stopAuto s).currentIndex = s.currentIndex := by
  unfold stopAuto; split <;> simp

@[simp] theorem stopAuto_cards : (stopAuto s).cards = s.cards := by
  unfold stopAuto; split <;> simp

@[simp] theorem stopAuto_indicators : (stopAuto s).indicators = s.indicators := by
  unfold stopAuto; split <;> simp

@[simp] theorem stopAuto_isPaused : (stopAuto s).isPaused = s.isPaused := by
  unfold stopAuto; split <;> simp

@[simp] theorem stopAuto_progressFill : (stopAuto s).progressFill = s.progressFill := by
  unfold stopAuto; split <;> simp

@[simp] theorem stopAuto_nextTimerId : (stopAuto s).nextTimerId = s.nextTimerId := by
  unfold stopAuto; split <;> simp

@[simp] theorem stopAuto_autoAdvanceDelay : (stopAuto s).autoAdvanceDelay = s.autoAdvanceDelay := by
  unfold stopAuto; split <;> simp

@[simp] theorem stopAuto_progressInterval : (stopAuto s).progressInterval = s.progressInterval := by
  unfold stopAuto; split <;> simp

@[simp] theorem stopProgress_currentIndex : (stopProgress s).currentIndex = s.currentIndex := by
  unfold stopProgress; split <;> simp

@[simp] theorem stopProgress_cards : (stopProgress s).cards = s.cards := by
  unfold stopProgress; split <;> simp

@[simp] theorem stopProgress_indicators : (stopProgress s).indicators = s.indicators := by
  unfold stopProgress; split <;> simp

@[simp] theorem stopProgress_isPaused : (stopProgress s).isPaused = s.isPaused := by
  unfold stopProgress; split <;> simp

@[simp] theorem stopProgress_progressFill : (stopProgress s).progressFill = s.progressFill := by
  unfold stopProgress; split <;> simp

@[simp] theorem stopProgress_nextTimerId : (stopProgress s).nextTimerId = s.nextTimerId := by
  unfold stopProgress; split <;> simp

@[simp] theorem stopProgress_autoAdvanceDelay : (stopProgress s).autoAdvanceDelay = s.autoAdvanceDelay := by
  unfold stopProgress; split <;> simp

@[simp] theorem stopProgress_autoAdvanceInterval : (stopProgress s).autoAdvanceInterval = s.autoAdvanceInterval := by
  unfold stopProgress; split <;> simp

@[simp] theorem resumeAutoAdvance_currentIndex :
    (resumeAutoAdvance s).currentIndex = s.currentIndex := by
  unfold resumeAutoAdvance; split <;> simp [pauseAutoAdvance]

@[simp] theorem resumeAutoAdvance_cards : (resumeAutoAdvance s).cards = s.cards := by
  unfold resumeAutoAdvance; split <;> simp [pauseAutoAdvance]

@[simp] theorem resumeAutoAdvance_indicators :
    (resumeAutoAdvance s).indicators = s.indicators := by
  unfold resumeAutoAdvance; split <;> simp [pauseAutoAdvance]

@[simp] theorem resumeAutoAdvance_isPaused : (resumeAutoAdvance s).isPaused = false := by
  unfold resumeAutoAdvance; split <;> simp

end Frame

/-! ## Navigation -/

/-- With the current index and the target both card positions, `goToSlide` returns, and
the elements it leaves behind are the ones computed here. -/
theorem goToSlide_ok (s : Carousel) (k : Nat) (hcur : s.currentIndex < s.cards.length)
    (hk : k < s.cards.length) :
    goToSlide k s = .ok (settle (goToSlide k s)) ∧
      (settle (goToSlide k s)).currentIndex = k ∧
      (settle (goToSlide k s)).cards =
        ((s.cards.map Card.collapse).modify Card.leave s.currentIndex).modify Card.enter k ∧
      (settle (goToSlide k s)).indicators =
        (s.indicators.map (Button.setActive false)).modify (Button.setActive true) k := by
  simp [goToSlide, hcur, setTimer, hk, settle]

/-- C1: for a carousel whose active marker sits on exactly the slide at `currentIndex`,
with at least as many indicators as slides, `goToSlide k` for a slide position `k`
returns a state where `currentIndex = k`, the slide at `k` is the only slide carrying the
active marker, the indicator at `k` is the only indicator carrying the active marker,
and no details panel is expanded. -/
theorem goToSlide_contract (s : Carousel) (k : Nat)
    (hind : s.cards.length ≤ s.indicators.length)
    (hcur : s.currentIndex < s.cards.length)
    (hact : ∀ i c, s.cards[i]? = some c → (c.active = true ↔ i = s.currentIndex))
    (hk : k < s.cards.length) :
    ∃ s', goToSlide k s = .ok s' ∧ s'.currentIndex = k ∧
      s'.cards.length = s.cards.length ∧ s'.indicators.length = s.indicators.length ∧
      (∃ c, s'.cards[k]? = some c ∧ c.active = true) ∧
      (∃ b, s'.indicators[k]? = some b ∧ b.active = true) ∧
      (∀ i c, s'.cards[i]? = some c → c.active = true → i = k) ∧
      (∀ i b, s'.indicators[i]? = some b → b.active = true → i = k) ∧
      (∀ c ∈ s'.cards, c.textContainer ≠ some true) := by
  obtain ⟨hok, hidx, hcards, hinds⟩ := goToSlide_ok s k hcur hk
  refine ⟨_, hok, hidx, by simp [hcards], by simp [hinds], ?_, ?_, ?_, ?_, ?_⟩
  · have hk' : k < (List.modify Card.leave s.currentIndex (s.cards.map Card.collapse)).length := by
      simpa using hk
    rw [hcards, List.getElem?_modify_eq, List.getElem?_eq_getElem hk']
    exact ⟨_, rfl, rfl⟩
  · have hk' : k < (s.indicators.map (Button.setActive false)).length := by
      simpa using Nat.lt_of_lt_of_le hk hind
    rw [hinds, List.getElem?_modify_eq, List.getElem?_eq_getElem hk']
    exact ⟨_, rfl, rfl⟩
  · intro i c hc ha
    by_contra hne
    rw [hcards, List.getElem?_modify_ne _ _ (Ne.symm hne), List.getElem?_modify] at hc
    rw [List.getElem?_map] at hc
    cases hci : s.cards[i]? with
    | none => simp [hci] at hc
    | some c0 =>
      simp only [hci, Option.map_some', Option.map_eq_map, Option.some.injEq] at hc
      by_cases hi : s.currentIndex = i
      · subst hc
        simp [hi, Card.leave] at ha
      · have h0 : c0.active = true := by
          subst hc
          simpa [hi, Card.collapse] using ha
        exact hi ((hact i c0 hci).1 h0).symm
  · intro i b hb ha
    by_contra hne
    rw [hinds, List.getElem?_modify_ne _ _ (Ne.symm hne), List.getElem?_map] at hb
    cases hbi : s.indicators[i]? with
    | none => simp [hbi] at hb
    | some b0 =>
      simp only [hbi, Option.map_some', Option.some.injEq] at hb
      subst hb
      simp [Button.setActive] at ha
  · intro c hc
    rw [hcards] at hc
    obtain ⟨i, hi, rfl⟩ := List.getElem_of_mem hc
    rw [List.getElem_modify, List.getElem_modify]
    have hcol : ∀ c0 : Card, c0.collapse.textContainer ≠ some true := by
      intro c0
      cases h : c0.textContainer <;> simp [Card.collapse, h]
    split <;> split <;> simp [Card.enter, Card.leave, hcol]

/-- Witness for C1 on the two-card page: the hypotheses hold after construction and
`goToSlide 1` has the stated effect. -/
theorem goToSlide_contract_witness :
    ∃ s', goToSlide 1 (construct demoDom) = .ok s' ∧ s'.currentIndex = 1 ∧
      s'.cards.length = (construct demoDom).cards.length ∧
      s'.indicators.length = (construct demoDom).indicators.length ∧
      (∃ c, s'.cards[1]? = some c ∧ c.active = true) ∧
      (∃ b, s'.indicators[1]? = some b ∧ b.active = true) ∧
      (∀ i c, s'.cards[i]? = some c → c.active = true → i = 1) ∧
      (∀ i b, s'.indicators[i]? = some b → b.active = true → i = 1) ∧
      (∀ c ∈ s'.cards, c.textContainer ≠ some true) :=
  goToSlide_contract (construct demoDom) 1 (by decide) (by decide)
    (by
      have hc : (construct demoDom).cards = demoDom.cards := by decide
      have hi : (construct demoDom).currentIndex = 0 := by decide
      intro i c h
      rw [hc] at h
      rw [hi]
      match i, h with
      | 0, h => cases h; decide
      | 1, h => cases h; decide
      | (n + 2), h => simp [demoDom] at h)
    (by decide)

/-- The index computed by `goToPrevious` is the Euclidean remainder of `currentIndex - 1`. -/
theorem prevIndex_eq (s : Carousel) (hN : 0 < s.cards.length) :
    (prevIndex s : Int) = ((s.currentIndex : Int) - 1) % (s.cards.length : Int) := by
  have hpos : (0 : Int) < (s.cards.length : Int) := by exact_mod_cast hN
  have h0 : 0 ≤ ((s.currentIndex : Int) - 1) % (s.cards.length : Int) :=
    Int.emod_nonneg _ (by omega)
  unfold prevIndex
  rw [Int.tmod_eq_emod (by omega) (by omega), Int.add_emod_self, Int.toNat_of_nonneg h0]

/-- The index computed by `goToPrevious` is a card position. -/
theorem prevIndex_lt (s : Carousel) (hN : 0 < s.cards.length) :
    prevIndex s < s.cards.length := by
  have hpos : (0 : Int) < (s.cards.length : Int) := by exact_mod_cast hN
  have h1 := prevIndex_eq s hN
  have h2 := Int.emod_lt_of_pos ((s.currentIndex : Int) - 1) hpos
  omega

/-- The index computed by `goToNext` is a card position. -/
theorem nextIndex_lt (s : Carousel) (hN : 0 < s.cards.length) :
    nextIndex s < s.cards.length :=
  Nat.mod_lt _ hN

/-- C2: with `currentIndex` a slide position (so there is at least one slide),
`goToNext` navigates to `(currentIndex + 1) mod N` and `goToPrevious` to
`(currentIndex - 1) mod N`; both return, the resulting index is again a slide position,
`goToNext` from `N - 1` yields `0` and `goToPrevious` from `0` yields `N - 1`. -/
theorem goToNext_goToPrevious_wrap (s : Carousel) (hcur : s.currentIndex < s.cards.length) :
    goToNext s = goToSlide ((s.currentIndex + 1) % s.cards.length) s ∧
    goToPrevious s =
      goToSlide (((s.currentIndex : Int) - 1) % (s.cards.length : Int)).toNat s ∧
    goToNext s = .ok (settle (goToNext s)) ∧
    goToPrevious s = .ok (settle (goToPrevious s)) ∧
    (settle (goToNext s)).currentIndex = (s.currentIndex + 1) % s.cards.length ∧
    ((settle (goToPrevious s)).currentIndex : Int)
      = ((s.currentIndex : Int) - 1) % (s.cards.length : Int) ∧
    (settle (goToNext s)).currentIndex < s.cards.length ∧
    (settle (goToPrevious s)).currentIndex < s.cards.length ∧
    (s.currentIndex = s.cards.length - 1 → (settle (goToNext s)).currentIndex = 0) ∧
    (s.currentIndex = 0 → (settle (goToPrevious s)).currentIndex = s.cards.length - 1) := by
  have hN : 0 < s.cards.length := by omega
  have hpe := prevIndex_eq s hN
  have hpl := prevIndex_lt s hN
  have hnl := nextIndex_lt s hN
  obtain ⟨hn1, hn2, -, -⟩ := goToSlide_ok s (nextIndex s) hcur hnl
  obtain ⟨hp1, hp2, -, -⟩ := goToSlide_ok s (prevIndex s) hcur hpl
  have hpn : (((s.currentIndex : Int) - 1) % (s.cards.length : Int)).toNat = prevIndex s := by
    rw [← hpe]; rfl
  refine ⟨rfl, ?_, hn1, hp1, hn2, ?_, ?_, ?_, ?_, ?_⟩
  · rw [hpn]; rfl
  · show (((settle (goToSlide (prevIndex s) s)).currentIndex : Nat) : Int) = _
    rw [hp2, hpe]
  · show (settle (goToSlide (nextIndex s) s)).currentIndex < _
    rw [hn2]; exact hnl
  · show (settle (goToSlide (prevIndex s) s)).currentIndex < _
    rw [hp2]; exact hpl
  · intro h
    show (settle (goToSlide (nextIndex s) s)).currentIndex = 0
    rw [hn2, nextIndex, h, Nat.sub_add_cancel hN, Nat.mod_self]
  · intro h
    show (settle (goToSlide (prevIndex s) s)).currentIndex = _
    rw [hp2]
    have h3 : ((s.currentIndex : Int) - 1) % (s.cards.length : Int)
        = (s.cards.length : Int) - 1 := by
      rw [h, ← Int.add_emod_self]
      exact Int.emod_eq_of_lt (by omega) (by omega)
    omega

/-- Witness for C2 on the two-card page right after construction. -/
theorem goToNext_goToPrevious_wrap_witness :
    (settle (goToNext (construct demoDom))).currentIndex = 1 ∧
    (settle (goToPrevious (construct demoDom))).currentIndex = 1 := by
  have h := goToNext_goToPrevious_wrap (construct demoDom) (by decide)
  exact ⟨h.2.2.2.2.1, h.2.2.2.2.2.2.2.2.2 (by decide)⟩

/-! ## Construction -/

/-- The indicators captured by the constructor are the children of the container after
synthesis that carry the class `indicator`. -/
theorem construct_indicators (d : Dom) :
    (construct d).indicators =
      ((d.indicatorContainer.map (fun ch => synthesize ch d.cards.length)).getD []).filter
        (fun b => b.indicator) := by
  unfold construct
  split <;> simp [constructFields]

/-- C3: with `N` slides and `M < N` indicator buttons in the container at startup, the
constructed controller holds exactly `N` indicators, the `M` original ones stay at
their positions, and the indicator at a position `i` with `M ≤ i < N` is the synthesized
button with `data-index` `i`, label `Go to slide i+1` and `data-testid` `indicator-i`. -/
theorem construct_synthesizes_indicators (d : Dom) (children : List Button)
    (hc : d.indicatorContainer = some children)
    (hall : ∀ b ∈ children, b.indicator = true)
    (hlt : children.length < d.cards.length) :
    (construct d).indicators.length = d.cards.length ∧
    (∀ i, i < children.length → (construct d).indicators[i]? = children[i]?) ∧
    (∀ i, children.length ≤ i → i < d.cards.length →
      (construct d).indicators[i]? = some
        { indicator := true,
          active := false,
          dataIndex := some (toString i),
          ariaLabel := some ("Go to slide " ++ toString (i + 1)),
          testid := some ("indicator-" ++ toString i) }) := by
  have hflt : ∀ l : List Button, (∀ b ∈ l, b.indicator = true) →
      l.filter (fun b => b.indicator) = l := by
    intro l hl
    exact List.filter_eq_self.2 hl
  have hind : (construct d).indicators =
      children ++ (List.range' children.length (d.cards.length - children.length)).map
        newIndicator := by
    rw [construct_indicators, hc]
    simp only [Option.map_some', Option.getD_some, synthesize, hlt, if_true]
    apply hflt
    intro b hb
    rcases List.mem_append.1 hb with h | h
    · exact hall b h
    · obtain ⟨i, -, rfl⟩ := List.mem_map.1 h
      rfl
  refine ⟨?_, ?_, ?_⟩
  · rw [hind]
    simp
    omega
  · intro i hi
    rw [hind, List.getElem?_append_left hi]
  · intro i hle hi
    rw [hind, List.getElem?_append_right hle, List.getElem?_map, List.getElem?_range']
    · simp only [Option.map_some', newIndicator]
      congr 4 <;> congr 1 <;> omega
    · omega

/-- Witness for C3: three cards and one indicator button in the markup. -/
theorem construct_synthesizes_indicators_witness :
    (construct { cards := demoDom.cards ++ demoDom.cards.take 1,
                 indicatorContainer := some [newIndicator 0],
                 progressFill := none }).indicators.length = 3 :=
  (construct_synthesizes_indicators
    { cards := demoDom.cards ++ demoDom.cards.take 1,
      indicatorContainer := some [newIndicator 0],
      progressFill := none }
    [newIndicator 0] rfl (by decide) (by decide)).1

/-! ## Video playback -/

/-- C4: on desktop, whatever the slide index, the prior video state and the carousel's
current index, after an observer callback the video is playing exactly when the last
entry of the batch reports intersecting and the slide index is the current index; in
every other case it is paused at position 0. Both for the callback of `script.js`
(reading `currentIndex`) and of `video.js` (reading `getCurrentIndex()`). -/
theorem desktop_observer_decision (i : Nat) (v : VideoEl) (c : ScriptJs.Carousel)
    (cards : List Card) (es : List Entry) (e : Entry) :
    ((ScriptJs.desktopObserver i c (es ++ [e]) v).paused = false ↔
        (e.isIntersecting = true ∧ i = c.currentIndex)) ∧
    (¬(e.isIntersecting = true ∧ i = c.currentIndex) →
        (ScriptJs.desktopObserver i c (es ++ [e]) v).paused = true ∧
        (ScriptJs.desktopObserver i c (es ++ [e]) v).currentTime = 0) ∧
    ((VideoJs.desktopObserver i cards (es ++ [e]) v).paused = false ↔
        (e.isIntersecting = true ∧ i = VideoJs.getCurrentIndex cards)) ∧
    (¬(e.isIntersecting = true ∧ i = VideoJs.getCurrentIndex cards) →
        (VideoJs.desktopObserver i cards (es ++ [e]) v).paused = true ∧
        (VideoJs.desktopObserver i cards (es ++ [e]) v).currentTime = 0) := by
  simp only [ScriptJs.desktopObserver, VideoJs.desktopObserver, List.foldl_append,
    List.foldl_cons, List.foldl_nil, ScriptJs.desktopEntry, VideoJs.desktopEntry]
  refine ⟨?_, ?_, ?_, ?_⟩
  · by_cases h : e.isIntersecting = true ∧ i = c.currentIndex
    · simp [h.1, h.2, VideoEl.play]
    · have h' : (e.isIntersecting && i == c.currentIndex) = false := by
        simpa using h
      simp [h', h, VideoEl.pauseAndRewind]
  · intro h
    have h' : (e.isIntersecting && i == c.currentIndex) = false := by
      simpa using h
    simp [h', VideoEl.pauseAndRewind]
  · by_cases h : e.isIntersecting = true ∧ i = VideoJs.getCurrentIndex cards
    · simp [h.1, ← h.2, VideoEl.play]
    · have h' : (e.isIntersecting && i == VideoJs.getCurrentIndex cards) = false := by
        simpa using h
      simp [h', h, VideoEl.pauseAndRewind]
  · intro h
    have h' : (e.isIntersecting && i == VideoJs.getCurrentIndex cards) = false := by
      simpa using h
    simp [h', VideoEl.pauseAndRewind]

/-- C5: on a narrow viewport, from every state a tap on the overlay hides the overlay and
starts the video; from every state, the one right after a tap included, an observer
callback whose last entry reports not intersecting, or whose slide index is not the
current index, leaves the video paused at position 0 with the overlay visible; a
callback whose entries all report intersecting on the current slide changes nothing.
Both for `script.js` and for `video.js`. -/
theorem mobile_tap_and_observer (i : Nat) (b : MobileBinding) (c : ScriptJs.Carousel)
    (cards : List Card) (es : List Entry) (e : Entry) :
    ((ScriptJs.overlayClick b).overlayHidden = true ∧
        (ScriptJs.overlayClick b).video.paused = false) ∧
    ((VideoJs.overlayClick b).overlayHidden = true ∧
        (VideoJs.overlayClick b).video.paused = false) ∧
    ((e.isIntersecting = false ∨ i ≠ c.currentIndex) →
        ∀ b0 ∈ [b, ScriptJs.overlayClick b],
          (ScriptJs.mobileObserver i c (es ++ [e]) b0).video.paused = true ∧
          (ScriptJs.mobileObserver i c (es ++ [e]) b0).video.currentTime = 0 ∧
          (ScriptJs.mobileObserver i c (es ++ [e]) b0).overlayHidden = false) ∧
    ((e.isIntersecting = false ∨ i ≠ VideoJs.getCurrentIndex cards) →
        ∀ b0 ∈ [b, VideoJs.overlayClick b],
          (VideoJs.mobileObserver i cards (es ++ [e]) b0).video.paused = true ∧
          (VideoJs.mobileObserver i cards (es ++ [e]) b0).video.currentTime = 0 ∧
          (VideoJs.mobileObserver i cards (es ++ [e]) b0).overlayHidden = false) ∧
    ((∀ x ∈ es, x.isIntersecting = true) → i = c.currentIndex →
        ScriptJs.mobileObserver i c es b = b) ∧
    ((∀ x ∈ es, x.isIntersecting = true) → i = VideoJs.getCurrentIndex cards →
        VideoJs.mobileObserver i cards es b = b) := by
  refine ⟨⟨rfl, rfl⟩, ⟨rfl, rfl⟩, ?_, ?_, ?_, ?_⟩
  · intro h b0 _
    have h' : (!e.isIntersecting || i != c.currentIndex) = true := by
      rcases h with h | h
      · simp [h]
      · simp [h]
    simp [ScriptJs.mobileObserver, List.foldl_append, ScriptJs.mobileEntry, h',
      VideoEl.pauseAndRewind]
  · intro h b0 _
    have h' : (!e.isIntersecting || i != VideoJs.getCurrentIndex cards) = true := by
      rcases h with h | h
      · simp [h]
      · simp [h]
    simp [VideoJs.mobileObserver, List.foldl_append, VideoJs.mobileEntry, h',
      VideoEl.pauseAndRewind]
  · intro hall hi
    unfold ScriptJs.mobileObserver
    induction es generalizing b with
    | nil => rfl
    | cons x xs ih =>
      have hx : x.isIntersecting = true := hall x (List.mem_cons_self _ _)
      have hstep : ScriptJs.mobileEntry i c b x = b := by
        simp [ScriptJs.mobileEntry, hx, hi]
      rw [List.foldl_cons, hstep]
      exact ih b (fun y hy => hall y (List.mem_cons_of_mem _ hy))
  · intro hall hi
    unfold VideoJs.mobileObserver
    induction es generalizing b with
    | nil => rfl
    | cons x xs ih =>
      have hx : x.isIntersecting = true := hall x (List.mem_cons_self _ _)
      have hstep : VideoJs.mobileEntry i cards b x = b := by
        simp [VideoJs.mobileEntry, hx, ← hi]
      rw [List.foldl_cons, hstep]
      exact ih b (fun y hy => hall y (List.mem_cons_of_mem _ hy))

/-- Witness for C4: the video of slide 1 was playing at position 3; an entry reporting
intersecting while slide 0 is current leaves it paused at position 0. -/
theorem desktop_observer_decision_witness :
    (ScriptJs.desktopObserver 1 { cards := demoDom.cards, currentIndex := 0, isMobile := false }
      ([] ++ [{ isIntersecting := true, intersectionRatio := 4 / 5 }])
      { paused := false, currentTime := 3 }).paused = true ∧
    (ScriptJs.desktopObserver 1 { cards := demoDom.cards, currentIndex := 0, isMobile := false }
      ([] ++ [{ isIntersecting := true, intersectionRatio := 4 / 5 }])
      { paused := false, currentTime := 3 }).currentTime = 0 :=
  (desktop_observer_decision 1 { paused := false, currentTime := 3 }
    { cards := demoDom.cards, currentIndex := 0, isMobile := false } demoDom.cards []
    { isIntersecting := true, intersectionRatio := 4 / 5 }).2.1 (by decide)

/-- Witness for C5: right after a tap on slide 0, an entry reporting not intersecting
leaves the video paused at position 0 with the overlay visible. -/
theorem mobile_tap_and_observer_witness :
    (ScriptJs.mobileObserver 0 { cards := demoDom.cards, currentIndex := 0, isMobile := true }
      ([] ++ [{ isIntersecting := false, intersectionRatio := 1 / 10 }])
      (ScriptJs.overlayClick
        { video := { paused := true, currentTime := 0 }, overlayHidden := false })).video.paused
      = true ∧
    (ScriptJs.mobileObserver 0 { cards := demoDom.cards, currentIndex := 0, isMobile := true }
      ([] ++ [{ isIntersecting := false, intersectionRatio := 1 / 10 }])
      (ScriptJs.overlayClick
        { video := { paused := true, currentTime := 0 }, overlayHidden := false })).overlayHidden
      = false :=
  have h := (mobile_tap_and_observer 0
    { video := { paused := true, currentTime := 0 }, overlayHidden := false }
    { cards := demoDom.cards, currentIndex := 0, isMobile := true } demoDom.cards []
    { isIntersecting := false, intersectionRatio := 1 / 10 }).2.2.1 (Or.inl rfl)
    (ScriptJs.overlayClick
      { video := { paused := true, currentTime := 0 }, overlayHidden := false })
    (by simp)
  ⟨h.1, h.2.2⟩

/-! ## Ownership of the timer table -/

/-- No auto-advance interval is live. -/
theorem autoTimers_eq_nil {s : Carousel} (h : ∀ t ∈ s.timers, t.kind.isAuto = false) :
    autoTimers s = [] := by
  unfold autoTimers
  rw [List.filter_eq_nil_iff]
  intro t ht
  simp [h t ht]

/-- No progress interval is live. -/
theorem progressTimers_eq_nil {s : Carousel}
    (h : ∀ t ∈ s.timers, t.kind.isProgress = false) : progressTimers s = [] := by
  unfold progressTimers
  rw [List.filter_eq_nil_iff]
  intro t ht
  simp [h t ht]

/-- Timers that share one handle in a table of distinct handles are at most one. -/
theorem length_le_one_of_same_id (l : List Timer) (c : Nat)
    (hnd : (l.map (fun t => t.id)).Nodup) (hid : ∀ t ∈ l, t.id = c) : l.length ≤ 1 := by
  match l, hnd, hid with
  | [], _, _ => simp
  | [_], _, _ => simp
  | a :: b :: r, hnd, hid =>
    exfalso
    have ha : a.id = c := hid a (by simp)
    have hb : b.id = c := hid b (by simp)
    simp only [List.map_cons, List.nodup_cons, List.mem_cons, not_or] at hnd
    exact hnd.1.1 (ha.trans hb.symm)

/-- In an owned table at most one auto-advance interval and at most one progress
interval are live. -/
theorem TimersOwned.atMostOne {s : Carousel} (h : TimersOwned s) :
    (autoTimers s).length ≤ 1 ∧ (progressTimers s).length ≤ 1 := by
  constructor
  · cases ha : s.autoAdvanceInterval with
    | none =>
      rw [autoTimers_eq_nil]
      · simp
      · intro t ht
        cases hk : t.kind.isAuto
        · rfl
        · have := h.auto t ht hk
          simp [ha] at this
    | some c =>
      apply length_le_one_of_same_id _ c
      · exact (List.Sublist.map _ (List.filter_sublist _)).nodup h.nodup
      · intro t ht
        obtain ⟨hm, hk⟩ := List.mem_filter.1 ht
        have := h.auto t hm hk
        rw [ha] at this
        exact (Option.some.inj this).symm
  · cases hp : s.progressInterval with
    | none =>
      rw [progressTimers_eq_nil]
      · simp
      · intro t ht
        cases hk : t.kind.isProgress
        · rfl
        · have := h.prog t ht hk
          simp [hp] at this
    | some c =>
      apply length_le_one_of_same_id _ c
      · exact (List.Sublist.map _ (List.filter_sublist _)).nodup h.nodup
      · intro t ht
        obtain ⟨hm, hk⟩ := List.mem_filter.1 ht
        have := h.prog t hm hk
        rw [hp] at this
        exact (Option.some.inj this).symm

/-- Ownership survives the removal of timers, provided a handle field either keeps its
value or is set to `null` with no timer of its kind left. -/
theorem TimersOwned.shrink {s s' : Carousel} (h : TimersOwned s)
    (hsub : s'.timers.Sublist s.timers) (hn : s'.nextTimerId = s.nextTimerId)
    (ha : s'.autoAdvanceInterval = s.autoAdvanceInterval ∨
      (s'.autoAdvanceInterval = none ∧ ∀ t ∈ s'.timers, t.kind.isAuto = false))
    (hp : s'.progressInterval = s.progressInterval ∨
      (s'.progressInterval = none ∧ ∀ t ∈ s'.timers, t.kind.isProgress = false)) :
    TimersOwned s' where
  nextPos := hn ▸ h.nextPos
  pos := fun t ht => h.pos t (hsub.subset ht)
  fresh := fun t ht => hn ▸ h.fresh t (hsub.subset ht)
  nodup := (hsub.map _).nodup h.nodup
  auto := by
    intro t ht hk
    rcases ha with ha | ⟨_, ha⟩
    · rw [ha]; exact h.auto t (hsub.subset ht) hk
    · rw [ha t ht] at hk; cases hk
  prog := by
    intro t ht hk
    rcases hp with hp | ⟨_, hp⟩
    · rw [hp]; exact h.prog t (hsub.subset ht) hk
    · rw [hp t ht] at hk; cases hk
  autoHandle := by
    intro c hc
    rcases ha with ha | ⟨ha, _⟩
    · exact h.autoHandle c (ha ▸ hc)
    · rw [ha] at hc; cases hc
  progHandle := by
    intro c hc
    rcases hp with hp | ⟨hp, _⟩
    · exact h.progHandle c (hp ▸ hc)
    · rw [hp] at hc; cases hc

/-- Ownership survives the registration of one timer under the next fresh handle,
provided the handle field of its kind is set to that handle and no other timer of
that kind is live. -/
theorem TimersOwned.grow {s s' : Carousel} (h : TimersOwned s) (k : TimerKind)
    (ht : s'.timers = s.timers ++ [{ id := s.nextTimerId, kind := k }])
    (hn : s'.nextTimerId = s.nextTimerId + 1)
    (ha : (k.isAuto = false ∧ s'.autoAdvanceInterval = s.autoAdvanceInterval) ∨
      (s'.autoAdvanceInterval = some s.nextTimerId ∧ ∀ t ∈ s.timers, t.kind.isAuto = false))
    (hp : (k.isProgress = false ∧ s'.progressInterval = s.progressInterval) ∨
      (s'.progressInterval = some s.nextTimerId ∧
        ∀ t ∈ s.timers, t.kind.isProgress = false)) :
    TimersOwned s' where
  nextPos := by rw [hn]; omega
  pos := by
    intro t hm
    rw [ht] at hm
    rcases List.mem_append.1 hm with hm | hm
    · exact h.pos t hm
    · rw [List.mem_singleton] at hm; subst hm; exact h.nextPos
  fresh := by
    intro t hm
    rw [ht] at hm
    rw [hn]
    rcases List.mem_append.1 hm with hm | hm
    · exact Nat.lt_succ_of_lt (h.fresh t hm)
    · rw [List.mem_singleton] at hm; subst hm; exact Nat.lt_succ_self _
  nodup := by
    rw [ht, List.map_append, List.nodup_append]
    refine ⟨h.nodup, by simp, ?_⟩
    intro a ha1 ha2
    simp only [List.map_cons, List.map_nil, List.mem_singleton] at ha2
    obtain ⟨t, htm, rfl⟩ := List.mem_map.1 ha1
    have := h.fresh t htm
    omega
  auto := by
    intro t hm hk
    rw [ht] at hm
    rcases List.mem_append.1 hm with hm | hm
    · rcases ha with ⟨_, ha⟩ | ⟨_, ha⟩
      · rw [ha]; exact h.auto t hm hk
      · rw [ha t hm] at hk; cases hk
    · rw [List.mem_singleton] at hm
      subst hm
      rcases ha with ⟨ha, _⟩ | ⟨ha, _⟩
      · rw [ha] at hk; cases hk
      · exact ha
  prog := by
    intro t hm hk
    rw [ht] at hm
    rcases List.mem_append.1 hm with hm | hm
    · rcases hp with ⟨_, hp⟩ | ⟨_, hp⟩
      · rw [hp]; exact h.prog t hm hk
      · rw [hp t hm] at hk; cases hk
    · rw [List.mem_singleton] at hm
      subst hm
      rcases hp with ⟨hp, _⟩ | ⟨hp, _⟩
      · rw [hp] at hk; cases hk
      · exact hp
  autoHandle := by
    intro c hc
    rcases ha with ⟨_, ha⟩ | ⟨ha, _⟩
    · exact h.autoHandle c (ha ▸ hc)
    · rw [ha] at hc; cases hc; exact h.nextPos
  progHandle := by
    intro c hc
    rcases hp with ⟨_, hp⟩ | ⟨hp, _⟩
    · exact h.progHandle c (hp ▸ hc)
    · rw [hp] at hc; cases hc; exact h.nextPos

/-- `clearInterval` only removes timers. -/
theorem clearInterval_sublist (h : Option Nat) (s : Carousel) :
    (clearInterval h s).timers.Sublist s.timers := by
  cases h with
  | none => exact List.Sublist.refl _
  | some c => exact List.filter_sublist _

/-- A positive handle is truthy. -/
theorem truthy_of_pos {c : Nat} (hc : 0 < c) : truthy (some c) = true := by
  cases c with
  | zero => omega
  | succ n => rfl

/-- A falsy handle field that can only hold positive handles is `null`. -/
theorem eq_none_of_not_truthy {h : Option Nat} (hpos : ∀ c, h = some c → 0 < c)
    (hf : ¬ truthy h = true) : h = none := by
  cases h with
  | none => rfl
  | some c => exact absurd (truthy_of_pos (hpos c rfl)) hf

/-- Ownership only depends on the timer table and the two handle fields. -/
theorem TimersOwned.congr {s s' : Carousel} (h : TimersOwned s)
    (ht : s'.timers = s.timers) (hn : s'.nextTimerId = s.nextTimerId)
    (ha : s'.autoAdvanceInterval = s.autoAdvanceInterval)
    (hp : s'.progressInterval = s.progressInterval) : TimersOwned s' :=
  h.shrink (ht ▸ List.Sublist.refl _) hn (Or.inl ha) (Or.inl hp)

theorem stopAuto_sublist (s : Carousel) : (stopAuto s).timers.Sublist s.timers := by
  unfold stopAuto
  split
  · exact clearInterval_sublist _ _
  · exact List.Sublist.refl _

theorem stopProgress_sublist (s : Carousel) : (stopProgress s).timers.Sublist s.timers := by
  unfold stopProgress
  split
  · exact clearInterval_sublist _ _
  · exact List.Sublist.refl _

theorem resetProgress_sublist (s : Carousel) : (resetProgress s).timers.Sublist s.timers := by
  unfold resetProgress
  split
  · exact clearInterval_sublist _ _
  · exact List.Sublist.refl _

/-- After the auto-advance block of the pause methods no auto-advance interval is live
and the handle is `null`. -/
theorem stopAuto_cleared {s : Carousel} (h : TimersOwned s) :
    (stopAuto s).autoAdvanceInterval = none ∧
      ∀ t ∈ (stopAuto s).timers, t.kind.isAuto = false := by
  unfold stopAuto
  split
  · rename_i htr
    refine ⟨rfl, ?_⟩
    intro t ht
    cases hk : t.kind.isAuto
    · rfl
    · exfalso
      cases hc : s.autoAdvanceInterval with
      | none => simp [hc, truthy] at htr
      | some c =>
        have ht' : t ∈ (clearInterval (some c) s).timers := by
          rw [hc] at ht; exact ht
        have hm := List.mem_filter.1 ht'
        have hid := h.auto t hm.1 hk
        rw [hc] at hid
        have := hm.2
        simp [Option.some.inj hid] at this
  · rename_i htr
    have hnone := eq_none_of_not_truthy h.autoHandle htr
    refine ⟨hnone, ?_⟩
    intro t ht
    cases hk : t.kind.isAuto
    · rfl
    · have := h.auto t ht hk
      rw [hnone] at this
      cases this

/-- After the progress block of the pause methods no progress interval is live and the
handle is `null`. -/
theorem stopProgress_cleared {s : Carousel} (h : TimersOwned s) :
    (stopProgress s).progressInterval = none ∧
      ∀ t ∈ (stopProgress s).timers, t.kind.isProgress = false := by
  unfold stopProgress
  split
  · rename_i htr
    refine ⟨rfl, ?_⟩
    intro t ht
    cases hk : t.kind.isProgress
    · rfl
    · exfalso
      cases hc : s.progressInterval with
      | none => simp [hc, truthy] at htr
      | some c =>
        have ht' : t ∈ (clearInterval (some c) s).timers := by
          rw [hc] at ht; exact ht
        have hm := List.mem_filter.1 ht'
        have hid := h.prog t hm.1 hk
        rw [hc] at hid
        have := hm.2
        simp [Option.some.inj hid] at this
  · rename_i htr
    have hnone := eq_none_of_not_truthy h.progHandle htr
    refine ⟨hnone, ?_⟩
    intro t ht
    cases hk : t.kind.isProgress
    · rfl
    · have := h.prog t ht hk
      rw [hnone] at this
      cases this

theorem owned_stopAuto {s : Carousel} (h : TimersOwned s) : TimersOwned (stopAuto s) :=
  h.shrink (stopAuto_sublist s) (by simp) (Or.inr (stopAuto_cleared h)) (Or.inl (by simp))

theorem owned_stopProgress {s : Carousel} (h : TimersOwned s) :
    TimersOwned (stopProgress s) :=
  h.shrink (stopProgress_sublist s) (by simp) (Or.inl (by simp))
    (Or.inr (stopProgress_cleared h))

theorem owned_resetProgress {s : Carousel} (h : TimersOwned s) :
    TimersOwned (resetProgress s) :=
  h.shrink (resetProgress_sublist s) (by simp) (Or.inl (by simp)) (Or.inl (by simp))

/-- The two pause blocks in sequence leave an owned table with both handles `null` and no
auto-advance or progress interval live. -/
theorem stopBoth_cleared {s : Carousel} (h : TimersOwned s) :
    TimersOwned (stopProgress (stopAuto s)) ∧
    (stopProgress (stopAuto s)).autoAdvanceInterval = none ∧
    (stopProgress (stopAuto s)).progressInterval = none ∧
    (∀ t ∈ (stopProgress (stopAuto s)).timers, t.kind.isAuto = false) ∧
    (∀ t ∈ (stopProgress (stopAuto s)).timers, t.kind.isProgress = false) := by
  have h1 := owned_stopAuto h
  have ha := stopAuto_cleared h
  have hp := stopProgress_cleared h1
  refine ⟨owned_stopProgress h1, ?_, hp.1, ?_, hp.2⟩
  · rw [stopProgress_autoAdvanceInterval]; exact ha.1
  · intro t ht
    exact ha.2 t ((stopProgress_sublist _).subset ht)

/-- `pauseAutoAdvance` keeps the table owned and leaves no interval live. -/
theorem pauseAutoAdvance_cleared {s : Carousel} (h : TimersOwned s) :
    TimersOwned (pauseAutoAdvance s) ∧
    (pauseAutoAdvance s).isPaused = true ∧
    (pauseAutoAdvance s).autoAdvanceInterval = none ∧
    (pauseAutoAdvance s).progressInterval = none ∧
    (∀ t ∈ (pauseAutoAdvance s).timers, t.kind.isAuto = false) ∧
    (∀ t ∈ (pauseAutoAdvance s).timers, t.kind.isProgress = false) := by
  have h0 : TimersOwned { s with isPaused := true } := h.congr rfl rfl rfl rfl
  obtain ⟨h1, h2, h3, h4, h5⟩ := stopBoth_cleared h0
  exact ⟨h1, by simp [pauseAutoAdvance], h2, h3, h4, h5⟩

/-- `pauseAutoAdvance` only removes timers. -/
theorem pauseAutoAdvance_sublist (s : Carousel) :
    (pauseAutoAdvance s).timers.Sublist s.timers :=
  (stopProgress_sublist _).trans (stopAuto_sublist _)

/-- `tempPauseAutoAdvance` keeps the table owned and leaves no interval live. -/
theorem tempPauseAutoAdvance_cleared {s : Carousel} (h : TimersOwned s) :
    TimersOwned (tempPauseAutoAdvance s) ∧
    (tempPauseAutoAdvance s).autoAdvanceInterval = none ∧
    (tempPauseAutoAdvance s).progressInterval = none ∧
    (∀ t ∈ (tempPauseAutoAdvance s).timers, t.kind.isAuto = false) ∧
    (∀ t ∈ (tempPauseAutoAdvance s).timers, t.kind.isProgress = false) :=
  stopBoth_cleared h

/-- The timer table, the next handle and the handle fields after `startAutoAdvance`. -/
theorem startAutoAdvance_table (s : Carousel) :
    (startAutoAdvance s).timers = (resetProgress s).timers ++
      [{ id := s.nextTimerId, kind := .progress 0 (increment s.autoAdvanceDelay) },
       { id := s.nextTimerId + 1, kind := .autoAdvance }] ∧
    (startAutoAdvance s).nextTimerId = s.nextTimerId + 2 ∧
    (startAutoAdvance s).progressInterval = some s.nextTimerId ∧
    (startAutoAdvance s).autoAdvanceInterval = some (s.nextTimerId + 1) := by
  simp [startAutoAdvance, startProgress, setTimer]

/-- Started on an owned table with no interval live, `startAutoAdvance` leaves an owned
table. -/
theorem owned_startAutoAdvance {s : Carousel} (h : TimersOwned s)
    (ha : ∀ t ∈ s.timers, t.kind.isAuto = false)
    (hp : ∀ t ∈ s.timers, t.kind.isProgress = false) :
    TimersOwned (startAutoAdvance s) := by
  have h1 := owned_resetProgress h
  have ha1 : ∀ t ∈ (resetProgress s).timers, t.kind.isAuto = false :=
    fun t ht => ha t ((resetProgress_sublist s).subset ht)
  have hp1 : ∀ t ∈ (resetProgress s).timers, t.kind.isProgress = false :=
    fun t ht => hp t ((resetProgress_sublist s).subset ht)
  have h2 : TimersOwned (startProgress (resetProgress s)) :=
    h1.grow (.progress 0 (increment (resetProgress s).autoAdvanceDelay))
      rfl rfl (Or.inl ⟨rfl, rfl⟩) (Or.inr ⟨rfl, hp1⟩)
  have ha2 : ∀ t ∈ (startProgress (resetProgress s)).timers, t.kind.isAuto = false := by
    intro t ht
    have ht' : t ∈ (resetProgress s).timers ++
        [{ id := (resetProgress s).nextTimerId,
           kind := .progress 0 (increment (resetProgress s).autoAdvanceDelay) }] := ht
    rcases List.mem_append.1 ht' with hm | hm
    · exact ha1 t hm
    · rw [List.mem_singleton] at hm; subst hm; rfl
  exact h2.grow .autoAdvance rfl rfl (Or.inr ⟨rfl, ha2⟩) (Or.inl ⟨rfl, rfl⟩)

/-- `resumeAutoAdvance` keeps the table owned. -/
theorem owned_resumeAutoAdvance {s : Carousel} (h : TimersOwned s) :
    TimersOwned (resumeAutoAdvance s) := by
  unfold resumeAutoAdvance
  split
  · obtain ⟨h1, -, -, -, h4, h5⟩ := pauseAutoAdvance_cleared h
    exact (owned_startAutoAdvance h1 h4 h5).congr rfl rfl rfl rfl
  · exact h.congr rfl rfl rfl rfl

/-- `goToSlide` keeps the table owned, whether it returns or throws. -/
theorem owned_goToSlide {s : Carousel} (h : TimersOwned s) (k : Nat) :
    TimersOwned (settle (goToSlide k s)) := by
  unfold goToSlide
  split
  · dsimp only
    split
    · simp only [settle]
      refine owned_resumeAutoAdvance (owned_resetProgress ?_)
      exact h.grow .prevTimeout rfl rfl (Or.inl ⟨rfl, rfl⟩) (Or.inl ⟨rfl, rfl⟩)
    · simp only [settle]
      exact h.grow .prevTimeout rfl rfl (Or.inl ⟨rfl, rfl⟩) (Or.inl ⟨rfl, rfl⟩)
  · exact h

/-- The details toggle keeps the table owned. -/
theorem owned_toggle {s : Carousel} (h : TimersOwned s) (i : Nat) :
    TimersOwned (toggle i s) := by
  unfold toggle
  split
  · exact h
  · split
    · exact h
    · split
      · exact owned_resumeAutoAdvance (h.congr rfl rfl rfl rfl)
      · exact And.left (pauseAutoAdvance_cleared (h.congr rfl rfl rfl rfl))

/-- The pointer-enter listener keeps the table owned. -/
theorem owned_mouseenter {s : Carousel} (h : TimersOwned s) :
    TimersOwned (settle (mouseenter s)) := by
  unfold mouseenter
  split
  · exact h
  · split
    · exact (tempPauseAutoAdvance_cleared h).1
    · exact h

/-- The pointer-leave listener keeps the table owned. -/
theorem owned_mouseleave {s : Carousel} (h : TimersOwned s) :
    TimersOwned (settle (mouseleave s)) := by
  unfold mouseleave
  split
  · exact h
  · split
    · exact owned_resumeAutoAdvance h
    · exact h

/-- In a table of distinct handles the timer found under a handle is the only one
carrying it. -/
theorem eq_of_find_id {l : List Timer} (hnd : (l.map (fun t => t.id)).Nodup) {id : Nat}
    {t u : Timer} (hf : l.find? (fun t => t.id == id) = some t) (hu : u ∈ l)
    (hid : u.id = id) : u = t := by
  have ht : t ∈ l := List.mem_of_find?_eq_some hf
  have htid : t.id = id := by
    have := List.find?_some hf
    simpa using this
  exact List.inj_on_of_nodup_map hnd hu ht (hid.trans htid.symm)

/-- A timer callback keeps the table owned. -/
theorem owned_fire {s : Carousel} (h : TimersOwned s) (id : Nat) :
    TimersOwned (settle (fire id s)) := by
  unfold fire
  split
  · exact h
  · rename_i t hf
    split
    · exact owned_goToSlide h _
    · rename_i v inc hk
      simp only [settle]
      have hkind : ∀ u ∈ s.timers, u.id = id → u.kind = .progress v inc := by
        intro u hu hid
        rw [eq_of_find_id h.nodup hf hu hid, hk]
      have hmem : ∀ u', u' ∈ s.timers.map (fun u =>
            if u.id == id then { u with kind := .progress (progressStep v inc) inc } else u) →
          ∃ u ∈ s.timers, u'.id = u.id ∧ u'.kind.isAuto = u.kind.isAuto ∧
            u'.kind.isProgress = u.kind.isProgress := by
        intro u' hu'
        obtain ⟨u, hu, rfl⟩ := List.mem_map.1 hu'
        refine ⟨u, hu, ?_⟩
        by_cases hid : u.id = id
        · simp [hid, hkind u hu hid, TimerKind.isAuto, TimerKind.isProgress]
        · simp [hid]
      have hids : (s.timers.map (fun u =>
            if u.id == id then { u with kind := .progress (progressStep v inc) inc } else u)).map
          (fun t => t.id) = s.timers.map (fun t => t.id) := by
        rw [List.map_map]
        apply List.map_congr_left
        intro u _
        by_cases hid : u.id = id <;> simp [hid]
      exact {
        nextPos := h.nextPos
        pos := fun u' hu' => by
          obtain ⟨u, hu, h1, -, -⟩ := hmem u' hu'
          rw [h1]; exact h.pos u hu
        fresh := fun u' hu' => by
          obtain ⟨u, hu, h1, -, -⟩ := hmem u' hu'
          rw [h1]; exact h.fresh u hu
        nodup := by
          show (List.map (fun t : Timer => t.id) (s.timers.map _)).Nodup
          rw [hids]; exact h.nodup
        auto := fun u' hu' hk' => by
          obtain ⟨u, hu, h1, h2, -⟩ := hmem u' hu'
          rw [h1]; exact h.auto u hu (h2 ▸ hk')
        prog := fun u' hu' hk' => by
          obtain ⟨u, hu, h1, -, h3⟩ := hmem u' hu'
          rw [h1]; exact h.prog u hu (h3 ▸ hk')
        autoHandle := h.autoHandle
        progHandle := h.progHandle }
    · dsimp only
      split
      · simp only [settle]
        exact h.shrink (List.filter_sublist _) rfl (Or.inl rfl) (Or.inl rfl)
      · simp only [settle]
        exact h.shrink (List.filter_sublist _) rfl (Or.inl rfl) (Or.inl rfl)

/-- Every operation keeps the table owned. -/
theorem owned_apply {s : Carousel} (h : TimersOwned s) (o : Op) : TimersOwned (o.apply s) := by
  cases o with
  | goToSlide k => exact owned_goToSlide h k
  | goToNext => exact owned_goToSlide h _
  | goToPrevious => exact owned_goToSlide h _
  | toggle i => exact owned_toggle h i
  | pauseAutoAdvance => exact (pauseAutoAdvance_cleared h).1
  | tempPauseAutoAdvance => exact (tempPauseAutoAdvance_cleared h).1
  | resumeAutoAdvance => exact owned_resumeAutoAdvance h
  | mouseenter => exact owned_mouseenter h
  | mouseleave => exact owned_mouseleave h
  | tick id => exact owned_fire h id

/-- Every sequence of operations keeps the table owned. -/
theorem owned_run {s : Carousel} (h : TimersOwned s) (ops : List Op) :
    TimersOwned (run ops s) := by
  induction ops generalizing s with
  | nil => exact h
  | cons o os ih => exact ih (owned_apply h o)

/-- The fields assigned by the constructor form an owned, empty table. -/
theorem owned_constructFields (d : Dom) : TimersOwned (constructFields d) where
  nextPos := Nat.one_pos
  pos := fun _ ht => by cases ht
  fresh := fun _ ht => by cases ht
  nodup := List.nodup_nil
  auto := fun _ ht => by cases ht
  prog := fun _ ht => by cases ht
  autoHandle := fun _ hc => by cases hc
  progHandle := fun _ hc => by cases hc

/-- A freshly constructed controller owns its timer table. -/
theorem owned_construct (d : Dom) : TimersOwned (construct d) := by
  unfold construct
  split
  · exact owned_startAutoAdvance (owned_constructFields d) (fun _ ht => by cases ht)
      (fun _ ht => by cases ht)
  · exact owned_constructFields d

/-- C9: in every state reached from a constructed controller through any sequence of
`goToSlide`, `goToNext`, `goToPrevious`, details toggles, `pauseAutoAdvance`,
`tempPauseAutoAdvance`, `resumeAutoAdvance`, pointer-enter / pointer-leave events and
timer callbacks, the timer table is owned by the controller, so at most one auto-advance
interval and at most one progress interval are live. -/
theorem timer_ownership (d : Dom) (ops : List Op) :
    TimersOwned (run ops (construct d)) ∧
    (autoTimers (run ops (construct d))).length ≤ 1 ∧
    (progressTimers (run ops (construct d))).length ≤ 1 :=
  ⟨owned_run (owned_construct d) ops, (owned_run (owned_construct d) ops).atMostOne⟩

/-! ## The sticky pause of the details toggle -/

@[simp] theorem pauseAutoAdvance_currentIndex (s : Carousel) :
    (pauseAutoAdvance s).currentIndex = s.currentIndex := by
  simp [pauseAutoAdvance]

@[simp] theorem pauseAutoAdvance_cards (s : Carousel) :
    (pauseAutoAdvance s).cards = s.cards := by
  simp [pauseAutoAdvance]

/-- Expanding the collapsed details of the current card through the toggle puts the
controller in the sticky pause. -/
theorem toggle_expand_sticky {s : Carousel} {card : Card} (h : TimersOwned s)
    (hcard : s.cards[s.currentIndex]? = some card)
    (hcol : card.textContainer = some false) :
    StickyPaused s.currentIndex (toggle s.currentIndex s) := by
  have ht : toggle s.currentIndex s = pauseAutoAdvance
      { s with cards := s.cards.modify (Card.setExpanded true) s.currentIndex } := by
    simp only [toggle, hcard, hcol]
    rfl
  rw [ht]
  obtain ⟨h1, h2, -, -, h5, h6⟩ := pauseAutoAdvance_cleared
    (s := { s with cards := s.cards.modify (Card.setExpanded true) s.currentIndex })
    (h.congr rfl rfl rfl rfl)
  refine ⟨h1, h2, by simp, ?_, h5, h6⟩
  refine ⟨Card.setExpanded true card, ?_, rfl⟩
  simp [hcard]

/-- In the sticky pause the hover handlers see an expanded panel. -/
theorem StickyPaused.isExpanded {c : Nat} {s : Carousel} (h : StickyPaused c s) :
    isExpanded s = some true := by
  obtain ⟨card, hc, he⟩ := h.expanded
  simp [Slands.isExpanded, h.index, hc, he]

/-- In the sticky pause pointer-enter changes nothing. -/
theorem StickyPaused.mouseenter {c : Nat} {s : Carousel} (h : StickyPaused c s) :
    settle (mouseenter s) = s := by
  simp [Slands.mouseenter, h.isExpanded, settle]

/-- In the sticky pause pointer-leave changes nothing. -/
theorem StickyPaused.mouseleave {c : Nat} {s : Carousel} (h : StickyPaused c s) :
    settle (mouseleave s) = s := by
  simp [Slands.mouseleave, h.isExpanded, settle]

/-- In the sticky pause a timer callback can only be the 600 ms timeout, which leaves the
controller in the sticky pause. -/
theorem StickyPaused.fire {c : Nat} {s : Carousel} (h : StickyPaused c s) (id : Nat) :
    StickyPaused c (settle (fire id s)) := by
  have hown := owned_fire h.owned id
  revert hown
  unfold Slands.fire
  split
  · intro _; exact h
  · rename_i t hf
    have htm : t ∈ s.timers := List.mem_of_find?_eq_some hf
    split
    · rename_i hk
      have := h.noAuto t htm
      rw [hk] at this
      cases this
    · rename_i v inc hk
      have := h.noProg t htm
      rw [hk] at this
      cases this
    · obtain ⟨card, hc, he⟩ := h.expanded
      have hlt : s.currentIndex < s.cards.length := by
        rw [h.index]
        exact (List.getElem?_eq_some_iff.1 hc).1
      dsimp only
      rw [if_pos hlt]
      simp only [settle]
      intro hown
      refine ⟨hown, h.paused, h.index, ⟨Card.clearPrev card, ?_, he⟩, ?_, ?_⟩
      · simp [h.index, hc]
      · intro u hu
        exact h.noAuto u (List.mem_filter.1 hu).1
      · intro u hu
        exact h.noProg u (List.mem_filter.1 hu).1

/-- Hover events and timer callbacks. -/
theorem StickyPaused.run {c : Nat} {s : Carousel} (h : StickyPaused c s) (evs : List Op)
    (hevs : ∀ o ∈ evs, o.isHoverOrTick = true) : StickyPaused c (run evs s) := by
  induction evs generalizing s with
  | nil => exact h
  | cons o os ih =>
    have ho := hevs o (List.mem_cons_self _ _)
    have hos : ∀ o' ∈ os, o'.isHoverOrTick = true :=
      fun o' ho' => hevs o' (List.mem_cons_of_mem _ ho')
    have hstep : StickyPaused c (o.apply s) := by
      cases o with
      | mouseenter => show StickyPaused c (settle (Slands.mouseenter s)); rw [h.mouseenter]; exact h
      | mouseleave => show StickyPaused c (settle (Slands.mouseleave s)); rw [h.mouseleave]; exact h
      | tick id => exact h.fire id
      | goToSlide k => cases ho
      | goToNext => cases ho
      | goToPrevious => cases ho
      | toggle i => cases ho
      | pauseAutoAdvance => cases ho
      | tempPauseAutoAdvance => cases ho
      | resumeAutoAdvance => cases ho
    exact ih hstep hos

/-- In the sticky pause neither a hover event nor a timer callback calls `goToNext`. -/
theorem StickyPaused.quiet {c : Nat} {s : Carousel} (h : StickyPaused c s) (o : Op)
    (ho : o.isHoverOrTick = true) : o.firesGoToNext s = false := by
  cases o with
  | tick id =>
    simp only [Op.firesGoToNext]
    split
    · rename_i t hf
      exact h.noAuto t (List.mem_of_find?_eq_some hf)
    · rfl
  | mouseenter => rfl
  | mouseleave => rfl
  | goToSlide k => cases ho
  | goToNext => cases ho
  | goToPrevious => cases ho
  | toggle i => cases ho
  | pauseAutoAdvance => cases ho
  | tempPauseAutoAdvance => cases ho
  | resumeAutoAdvance => cases ho

/-- C6: in a controller state whose timer table is owned and whose current slide has a
collapsed details panel, the toggle expands the panel and leaves `isPaused = true` with no
auto-advance and no progress interval live; from then on, along every sequence of timer
callbacks and pointer-enter / pointer-leave events, no event of the sequence calls
`goToNext`, and afterwards `currentIndex` is unchanged, the controller is still paused
and still no interval is live. -/
theorem expand_details_stops_auto_advance (s : Carousel) (card : Card)
    (hown : TimersOwned s)
    (hcard : s.cards[s.currentIndex]? = some card)
    (hcol : card.textContainer = some false)
    (evs : List Op) (hevs : ∀ o ∈ evs, o.isHoverOrTick = true) :
    (∃ c1, (toggle s.currentIndex s).cards[s.currentIndex]? = some c1 ∧
      c1.textContainer = some true) ∧
    (toggle s.currentIndex s).isPaused = true ∧
    autoTimers (toggle s.currentIndex s) = [] ∧
    progressTimers (toggle s.currentIndex s) = [] ∧
    (∀ pre o post, evs = pre ++ o :: post →
      o.firesGoToNext (run pre (toggle s.currentIndex s)) = false) ∧
    (run evs (toggle s.currentIndex s)).currentIndex = s.currentIndex ∧
    (run evs (toggle s.currentIndex s)).isPaused = true ∧
    autoTimers (run evs (toggle s.currentIndex s)) = [] ∧
    progressTimers (run evs (toggle s.currentIndex s)) = [] := by
  have h0 := toggle_expand_sticky hown hcard hcol
  have h1 := h0.run evs hevs
  refine ⟨h0.expanded, h0.paused, autoTimers_eq_nil h0.noAuto,
    progressTimers_eq_nil h0.noProg, ?_, h1.index, h1.paused, autoTimers_eq_nil h1.noAuto,
    progressTimers_eq_nil h1.noProg⟩
  intro pre o post hsplit
  have hpre : ∀ o' ∈ pre, o'.isHoverOrTick = true := by
    intro o' ho'
    exact hevs o' (by rw [hsplit]; exact List.mem_append_left _ ho')
  have ho : o.isHoverOrTick = true :=
    hevs o (by rw [hsplit]; exact List.mem_append_right _ (List.mem_cons_self _ _))
  exact (h0.run pre hpre).quiet o ho

/-- Witness for C6: the two-card page right after construction, details of the first
card expanded, then pointer-leave, the callbacks of both intervals started by the
constructor, and pointer-enter. -/
theorem expand_details_stops_auto_advance_witness :
    (run [.mouseleave, .tick 1, .tick 2, .mouseenter]
      (toggle 0 (construct demoDom))).currentIndex = 0 ∧
    autoTimers (run [.mouseleave, .tick 1, .tick 2, .mouseenter]
      (toggle 0 (construct demoDom))) = [] :=
  have h := expand_details_stops_auto_advance (construct demoDom)
    { active := true, prev := false, textContainer := some false }
    (owned_construct demoDom) (by decide) rfl
    [.mouseleave, .tick 1, .tick 2, .mouseenter] (by decide)
  ⟨h.2.2.2.2.2.1, h.2.2.2.2.2.2.2.1⟩

/-! ## Resuming the auto-advance -/

@[simp] theorem pauseAutoAdvance_nextTimerId (s : Carousel) :
    (pauseAutoAdvance s).nextTimerId = s.nextTimerId := by
  simp [pauseAutoAdvance]

@[simp] theorem pauseAutoAdvance_autoAdvanceDelay (s : Carousel) :
    (pauseAutoAdvance s).autoAdvanceDelay = s.autoAdvanceDelay := by
  simp [pauseAutoAdvance]

@[simp] theorem pauseAutoAdvance_progressFill (s : Carousel) :
    (pauseAutoAdvance s).progressFill = s.progressFill := by
  simp [pauseAutoAdvance]

/-- C7, evaluated on the two-card page: the toggle of the first card expands its panel and
pauses; the same toggle again collapses the panel and clears `isPaused`, but no
auto-advance interval and no progress interval is started: the timer table is empty and
both handles are `null`. -/
theorem toggle_collapse_leaves_timers_stopped :
    (toggle 0 (construct demoDom)).cards[0]? =
      some { active := true, prev := false, textContainer := some true } ∧
    (toggle 0 (construct demoDom)).isPaused = true ∧
    (toggle 0 (toggle 0 (construct demoDom))).cards[0]? =
      some { active := true, prev := false, textContainer := some false } ∧
    (toggle 0 (toggle 0 (construct demoDom))).isPaused = false ∧
    (toggle 0 (toggle 0 (construct demoDom))).timers = [] ∧
    (toggle 0 (toggle 0 (construct demoDom))).autoAdvanceInterval = none ∧
    (toggle 0 (toggle 0 (construct demoDom))).progressInterval = none := by
  decide

/-- C8, evaluated on the two-card page: in the paused state reached by `pauseAutoAdvance`
(`isPaused = true`, no interval live, both handles `null`) `resumeAutoAdvance` is not a
no-op: it leaves `isPaused = false`, while the timer table, both handles, the progress
display and `currentIndex` stay as they were. -/
theorem resumeAutoAdvance_paused_changes_flag :
    (pauseAutoAdvance (construct demoDom)).isPaused = true ∧
    (resumeAutoAdvance (pauseAutoAdvance (construct demoDom))).isPaused = false ∧
    (resumeAutoAdvance (pauseAutoAdvance (construct demoDom))).isPaused ≠
      (pauseAutoAdvance (construct demoDom)).isPaused ∧
    (resumeAutoAdvance (pauseAutoAdvance (construct demoDom))).timers =
      (pauseAutoAdvance (construct demoDom)).timers ∧
    (resumeAutoAdvance (pauseAutoAdvance (construct demoDom))).autoAdvanceInterval = none ∧
    (resumeAutoAdvance (pauseAutoAdvance (construct demoDom))).progressInterval = none ∧
    (resumeAutoAdvance (pauseAutoAdvance (construct demoDom))).currentIndex =
      (pauseAutoAdvance (construct demoDom)).currentIndex := by
  decide

/-! ## The progress bar -/

/-- `startProgress` leaves the state `progressTicked` with the variable at 0. -/
theorem startProgress_eq (s : Carousel) :
    startProgress s = progressTicked s 0 s.progressFill :=
  rfl

/-- On an owned table the handle of the interval started by `startProgress` finds that
interval. -/
theorem find_progressTimer (s : Carousel) (hown : TimersOwned s) (v : ℚ) :
    (s.timers ++ [progressTimer s v]).find? (fun t => t.id == s.nextTimerId) =
      some (progressTimer s v) := by
  have hne : ∀ t ∈ s.timers, ¬ t.id = s.nextTimerId :=
    fun t ht => Nat.ne_of_lt (hown.fresh t ht)
  rw [List.find?_append, List.find?_eq_none.2 (by
    intro t ht; simpa using hne t ht)]
  simp [progressTimer]

/-- Operations run one after the other. -/
theorem run_append (a b : List Op) (s : Carousel) : run (a ++ b) s = run b (run a s) := by
  simp [run, List.foldl_append]

/-- One callback of the progress interval started on an owned table. -/
theorem tick_progressTicked (s : Carousel) (hown : TimersOwned s) (v : ℚ)
    (fill : Option ℚ) :
    (Op.tick s.nextTimerId).apply (progressTicked s v fill) =
      progressTicked s (progressStep v (increment s.autoAdvanceDelay))
        (fill.map (fun _ => progressStep v (increment s.autoAdvanceDelay))) := by
  have hne : ∀ t ∈ s.timers, ¬ t.id = s.nextTimerId :=
    fun t ht => Nat.ne_of_lt (hown.fresh t ht)
  have hmap : ∀ k : TimerKind, s.timers.map (fun u =>
      if u.id == s.nextTimerId then ({ u with kind := k } : Timer) else u) = s.timers := by
    intro k
    rw [List.map_congr_left (g := id)]
    · simp
    · intro u hu
      simp [hne u hu]
  have hfind := find_progressTimer s hown v
  simp only [Op.apply, fire, progressTicked, hfind, settle, List.map_append, hmap]
  simp [progressTimer, hmap]

/-- The state after `n` callbacks of the progress interval started by `startProgress` on an
owned table. -/
theorem run_ticks_startProgress (s : Carousel) (hown : TimersOwned s) (n : Nat) :
    run (List.replicate n (.tick s.nextTimerId)) (startProgress s) =
      progressTicked s (progressAfter s.autoAdvanceDelay n)
        (if n = 0 then s.progressFill
         else s.progressFill.map (fun _ => progressAfter s.autoAdvanceDelay n)) := by
  induction n with
  | zero => simp [run, startProgress_eq, progressAfter]
  | succ n ih =>
    rw [List.replicate_succ', run_append, ih]
    show (Op.tick s.nextTimerId).apply _ = _
    rw [tick_progressTicked s hown]
    have hstep : progressStep (progressAfter s.autoAdvanceDelay n)
        (increment s.autoAdvanceDelay) = progressAfter s.autoAdvanceDelay (n + 1) := rfl
    rw [hstep]
    congr 1
    by_cases h0 : n = 0
    · simp [h0]
    · simp [h0, Option.map_map, Function.comp_def]

/-- The closure variable read off `progressTicked`. -/
theorem progressValue_progressTicked (s : Carousel) (hown : TimersOwned s) (v : ℚ)
    (fill : Option ℚ) : progressValue (progressTicked s v fill) = some v := by
  have hfind := find_progressTimer s hown v
  simp only [progressValue, progressTicked, hfind]
  rfl

/-- The double computed for `increment` with the delay 9000: `1.1111111111111112`. -/
theorem increment_9000 : increment 9000 = 2501999792983609 / 2251799813685248 := by
  decide!

/-- The closure variable never exceeds 100, whatever the delay. -/
theorem progressAfter_le (delay n : Nat) : progressAfter delay n ≤ 100 := by
  cases n with
  | zero => simp [progressAfter]
  | succ n =>
    simp only [progressAfter, progressStep]
    split
    · exact le_refl _
    · rename_i h
      exact le_of_lt (not_le.1 h)

/-- With the delay 9000 the 90th callback reaches 100 exactly: the sum of doubles is just
above 100 and is clamped. -/
theorem progressAfter_9000_at_90 : progressAfter 9000 90 = 100 := by
  decide!

/-- Once at 100 the variable stays at 100. -/
theorem progressStep_9000_at_100 : progressStep 100 (increment 9000) = 100 := by
  decide!

/-- With the delay 9000 the variable is exactly 100 from the 90th callback on. -/
theorem progressAfter_9000_of_ge (n : Nat) (hn : 90 ≤ n) : progressAfter 9000 n = 100 := by
  induction n with
  | zero => omega
  | succ n ih =>
    by_cases h : n + 1 = 90
    · rw [h]; exact progressAfter_9000_at_90
    · have hle : 90 ≤ n := by omega
      show progressStep (progressAfter 9000 n) (increment 9000) = 100
      rw [ih hle]
      exact progressStep_9000_at_100

/-- With the delay 9000 no callback before the 90th lowers the variable. -/
theorem progressAfter_9000_mono_lt :
    ∀ n, n < 90 → progressAfter 9000 n ≤ progressAfter 9000 (n + 1) := by
  decide!

/-- With the delay 9000 the variable never decreases. -/
theorem progressAfter_9000_mono (n : Nat) :
    progressAfter 9000 n ≤ progressAfter 9000 (n + 1) := by
  by_cases h : n < 90
  · exact progressAfter_9000_mono_lt n h
  · rw [progressAfter_9000_of_ge n (by omega), progressAfter_9000_of_ge (n + 1) (by omega)]

/-- With the delay 9000 the variable stays within `10 ^ (-12)` of `min 100 (n * 10 / 9)`
up to the 90th callback. -/
theorem progressAfter_9000_close_lt :
    ∀ n, n < 91 → |progressAfter 9000 n - min 100 ((n : ℚ) * (10 / 9))| ≤ 1 / 10 ^ 12 := by
  decide!

/-- With the delay 9000 the variable stays within `10 ^ (-12)` of `min 100 (n * 10 / 9)`. -/
theorem progressAfter_9000_close (n : Nat) :
    |progressAfter 9000 n - min 100 ((n : ℚ) * (10 / 9))| ≤ 1 / 10 ^ 12 := by
  by_cases h : n < 91
  · exact progressAfter_9000_close_lt n h
  · have hn : (91 : ℚ) ≤ (n : ℚ) := by exact_mod_cast (by omega : 91 ≤ n)
    have hmin : min 100 ((n : ℚ) * (10 / 9)) = 100 := by
      apply min_eq_left
      linarith
    rw [progressAfter_9000_of_ge n (by omega), hmin]
    norm_num

/-- With a delay of 1200 the twelfth callback, at 1200 ms, leaves the variable just below
100: `99.99999999999999`. -/
theorem progressAfter_1200_at_12 :
    progressAfter 1200 12 = 7036874417766399 / 70368744177664 := by
  decide!

/-- C10 as stated fails, on the controller fields of the two-card page (delay 9000): the
increment of `startProgress` is the double `1.1111111111111112`, not `10 / 9`, and after 9
callbacks the progress variable is `10 - 2 ^ (-49)` (`9.999999999999998`), not
`min 100 (9 * 10 / 9) = 10`. -/
theorem progress_not_exact_rational :
    (constructFields demoDom).autoAdvanceDelay = 9000 ∧
    increment (constructFields demoDom).autoAdvanceDelay ≠ 10 / 9 ∧
    progressValue (run (List.replicate 9 (.tick (constructFields demoDom).nextTimerId))
      (startProgress (constructFields demoDom))) = some (10 - 1 / 2 ^ 49) ∧
    progressValue (run (List.replicate 9 (.tick (constructFields demoDom).nextTimerId))
      (startProgress (constructFields demoDom))) ≠ some (min 100 ((9 : ℚ) * (10 / 9))) := by
  decide!

/-- C10, amended: with `autoAdvanceDelay = 9000` the increment of `startProgress` is the
double nearest to `10 / 9`; after `n` callbacks of the progress interval, with no reset in
between, the progress variable, accumulated in double arithmetic, is within `10 ^ (-12)`
of `min 100 (n * 10 / 9)` and, once a callback has run, is the width of the progress bar;
it does not decrease from one callback to the next, never exceeds 100, and is exactly 100
from the 90th callback on. -/
theorem progress_after_ticks (s : Carousel) (hown : TimersOwned s)
    (hdelay : s.autoAdvanceDelay = 9000) (n : Nat) :
    increment s.autoAdvanceDelay = 2501999792983609 / 2251799813685248 ∧
    ∃ v w,
      progressValue (run (List.replicate n (.tick s.nextTimerId)) (startProgress s)) =
        some v ∧
      progressValue (run (List.replicate (n + 1) (.tick s.nextTimerId)) (startProgress s)) =
        some w ∧
      (0 < n →
        (run (List.replicate n (.tick s.nextTimerId)) (startProgress s)).progressFill =
          s.progressFill.map (fun _ => v)) ∧
      |v - min 100 ((n : ℚ) * (10 / 9))| ≤ 1 / 10 ^ 12 ∧
      v ≤ w ∧ v ≤ 100 ∧ w ≤ 100 ∧
      (90 ≤ n → v = 100) := by
  have hval : ∀ m : Nat,
      progressValue (run (List.replicate m (.tick s.nextTimerId)) (startProgress s)) =
        some (progressAfter 9000 m) := by
    intro m
    rw [run_ticks_startProgress s hown, progressValue_progressTicked s hown, hdelay]
  refine ⟨by rw [hdelay]; exact increment_9000, progressAfter 9000 n,
    progressAfter 9000 (n + 1), hval n, hval (n + 1), ?_, progressAfter_9000_close n,
    progressAfter_9000_mono n, progressAfter_le 9000 n, progressAfter_le 9000 (n + 1),
    progressAfter_9000_of_ge n⟩
  intro hn
  rw [run_ticks_startProgress s hown, hdelay]
  have : n ≠ 0 := by omega
  simp [progressTicked, this]

/-- Witness for C10 amended: the progress interval started on the fields assigned by the
constructor of the two-card page shows exactly 100 after 90 callbacks. -/
theorem progress_after_ticks_witness :
    progressValue (run (List.replicate 90 (.tick (constructFields demoDom).nextTimerId))
      (startProgress (constructFields demoDom))) = some 100 := by
  obtain ⟨-, v, w, hv, -, -, -, -, -, -, h90⟩ :=
    progress_after_ticks (constructFields demoDom) (owned_constructFields demoDom) rfl 90
  rw [hv, h90 (le_refl 90)]

/-! ## Carousel and videos together -/

/-- The decision of the desktop callback of `script.js`, read off the last entry. -/
theorem ScriptJs.script_desktopObserver_playing (i : Nat) (c : ScriptJs.Carousel) (es : List Entry)
    (e : Entry) (v : VideoEl) :
    (ScriptJs.desktopObserver i c (es ++ [e]) v).paused = false ↔
      (e.isIntersecting = true ∧ i = c.currentIndex) := by
  simp only [ScriptJs.desktopObserver, List.foldl_append, List.foldl_cons, List.foldl_nil,
    ScriptJs.desktopEntry]
  by_cases h : e.isIntersecting = true ∧ i = c.currentIndex
  · simp [h.1, h.2, VideoEl.play]
  · have h' : (e.isIntersecting && i == c.currentIndex) = false := by
      simpa using h
    simp [h', h, VideoEl.pauseAndRewind]

/-- The decision of the desktop callback of `video.js`, read off the last entry. -/
theorem VideoJs.videojs_desktopObserver_playing (i : Nat) (cards : List Card) (es : List Entry)
    (e : Entry) (v : VideoEl) :
    (VideoJs.desktopObserver i cards (es ++ [e]) v).paused = false ↔
      (e.isIntersecting = true ∧ i = VideoJs.getCurrentIndex cards) := by
  simp only [VideoJs.desktopObserver, List.foldl_append, List.foldl_cons, List.foldl_nil,
    VideoJs.desktopEntry]
  by_cases h : e.isIntersecting = true ∧ i = VideoJs.getCurrentIndex cards
  · simp [h.1, ← h.2, VideoEl.play]
  · have h' : (e.isIntersecting && i == VideoJs.getCurrentIndex cards) = false := by
      simpa using h
    simp [h', h, VideoEl.pauseAndRewind]

/-- A step of the `script.js` page other than the callback of card `i` leaves the video of
card `i` as it is. -/
theorem ScriptJs.script_apply_video_of_not_observes (i : Nat) (st : ScriptJs.Step)
    (p : ScriptJs.Page) (h : st.observes i = false) :
    (st.apply p).videos[i]? = p.videos[i]? := by
  cases st with
  | go index => rfl
  | prev => rfl
  | next => rfl
  | observe j entries =>
    have hne : j ≠ i := by
      simpa [ScriptJs.Step.observes] using h
    simp only [ScriptJs.Step.apply]
    exact List.getElem?_modify_ne _ _ hne

/-- Steps of the `script.js` page other than callbacks of card `i` leave the video of card
`i` as it is. -/
theorem ScriptJs.script_runSteps_video_of_not_observes (i : Nat) (steps : List ScriptJs.Step)
    (p : ScriptJs.Page) (h : ∀ st ∈ steps, st.observes i = false) :
    (ScriptJs.runSteps steps p).videos[i]? = p.videos[i]? := by
  induction steps generalizing p with
  | nil => rfl
  | cons st rest ih =>
    have h1 := ScriptJs.script_apply_video_of_not_observes i st p (h st (List.mem_cons_self _ _))
    have h2 := ih (st.apply p) (fun x hx => h x (List.mem_cons_of_mem _ hx))
    exact h2.trans h1

/-- Every step of the `script.js` page keeps the number of videos. -/
theorem ScriptJs.script_apply_videos_length (st : ScriptJs.Step) (p : ScriptJs.Page) :
    (st.apply p).videos.length = p.videos.length := by
  cases st <;> simp [ScriptJs.Step.apply]

/-- Every sequence of steps of the `script.js` page keeps the number of videos. -/
theorem ScriptJs.script_runSteps_videos_length (steps : List ScriptJs.Step) (p : ScriptJs.Page) :
    (ScriptJs.runSteps steps p).videos.length = p.videos.length := by
  induction steps generalizing p with
  | nil => rfl
  | cons st rest ih => exact (ih (st.apply p)).trans (ScriptJs.script_apply_videos_length st p)

/-- Steps of the `script.js` page run one after the other. -/
theorem ScriptJs.script_runSteps_append (a b : List ScriptJs.Step) (p : ScriptJs.Page) :
    ScriptJs.runSteps (a ++ b) p = ScriptJs.runSteps b (ScriptJs.runSteps a p) := by
  simp [ScriptJs.runSteps, List.foldl_append]

/-- A step of the `main.js` / `video.js` page other than the callback of card `i` leaves
the video of card `i` as it is. -/
theorem VideoJs.videojs_apply_video_of_not_observes (i : Nat) (st : VideoJs.Step)
    (p : VideoJs.Page) (h : st.observes i = false) :
    (st.apply p).videos[i]? = p.videos[i]? := by
  cases st with
  | op o => rfl
  | observe j entries =>
    have hne : j ≠ i := by
      simpa [VideoJs.Step.observes] using h
    simp only [VideoJs.Step.apply]
    exact List.getElem?_modify_ne _ _ hne

/-- Steps of the `main.js` / `video.js` page other than callbacks of card `i` leave the
video of card `i` as it is. -/
theorem VideoJs.videojs_runSteps_video_of_not_observes (i : Nat) (steps : List VideoJs.Step)
    (p : VideoJs.Page) (h : ∀ st ∈ steps, st.observes i = false) :
    (VideoJs.runSteps steps p).videos[i]? = p.videos[i]? := by
  induction steps generalizing p with
  | nil => rfl
  | cons st rest ih =>
    have h1 := VideoJs.videojs_apply_video_of_not_observes i st p (h st (List.mem_cons_self _ _))
    have h2 := ih (st.apply p) (fun x hx => h x (List.mem_cons_of_mem _ hx))
    exact h2.trans h1

/-- Every step of the `main.js` / `video.js` page keeps the number of videos. -/
theorem VideoJs.videojs_apply_videos_length (st : VideoJs.Step) (p : VideoJs.Page) :
    (st.apply p).videos.length = p.videos.length := by
  cases st <;> simp [VideoJs.Step.apply]

/-- Every sequence of steps of the `main.js` / `video.js` page keeps the number of
videos. -/
theorem VideoJs.videojs_runSteps_videos_length (steps : List VideoJs.Step) (p : VideoJs.Page) :
    (VideoJs.runSteps steps p).videos.length = p.videos.length := by
  induction steps generalizing p with
  | nil => rfl
  | cons st rest ih => exact (ih (st.apply p)).trans (VideoJs.videojs_apply_videos_length st p)

/-- Steps of the `main.js` / `video.js` page run one after the other. -/
theorem VideoJs.videojs_runSteps_append (a b : List VideoJs.Step) (p : VideoJs.Page) :
    VideoJs.runSteps (a ++ b) p = VideoJs.runSteps b (VideoJs.runSteps a p) := by
  simp [VideoJs.runSteps, List.foldl_append]

/-- On the `script.js` page, after a callback of card `i` followed by steps that are not
callbacks of card `i`, the video of card `i` is the one the callback left. -/
theorem ScriptJs.script_video_after_callback (i : Nat) (es : List Entry) (e : Entry)
    (p : ScriptJs.Page) (pre post : List ScriptJs.Step) (hi : i < p.videos.length)
    (hpost : ∀ st ∈ post, st.observes i = false) :
    ∃ v0, (ScriptJs.runSteps pre p).videos[i]? = some v0 ∧
      (ScriptJs.runSteps (pre ++ .observe i (es ++ [e]) :: post) p).videos[i]? =
        some (ScriptJs.desktopObserver i (ScriptJs.runSteps pre p).carousel (es ++ [e]) v0) := by
  have hlen : i < (ScriptJs.runSteps pre p).videos.length := by
    rw [ScriptJs.script_runSteps_videos_length]; exact hi
  refine ⟨(ScriptJs.runSteps pre p).videos[i], List.getElem?_eq_getElem hlen, ?_⟩
  rw [ScriptJs.script_runSteps_append]
  show (ScriptJs.runSteps post
    ((ScriptJs.Step.observe i (es ++ [e])).apply (ScriptJs.runSteps pre p))).videos[i]? = _
  rw [ScriptJs.script_runSteps_video_of_not_observes i post _ hpost]
  simp only [ScriptJs.Step.apply, List.getElem?_modify_eq, List.getElem?_eq_getElem hlen]
  rfl

/-- On the `main.js` / `video.js` page, after a callback of card `i` followed by steps that
are not callbacks of card `i`, the video of card `i` is the one the callback left. -/
theorem VideoJs.videojs_video_after_callback (i : Nat) (es : List Entry) (e : Entry)
    (p : VideoJs.Page) (pre post : List VideoJs.Step) (hi : i < p.videos.length)
    (hpost : ∀ st ∈ post, st.observes i = false) :
    ∃ v0, (VideoJs.runSteps pre p).videos[i]? = some v0 ∧
      (VideoJs.runSteps (pre ++ .observe i (es ++ [e]) :: post) p).videos[i]? =
        some (VideoJs.desktopObserver i (VideoJs.runSteps pre p).carousel.cards
          (es ++ [e]) v0) := by
  have hlen : i < (VideoJs.runSteps pre p).videos.length := by
    rw [VideoJs.videojs_runSteps_videos_length]; exact hi
  refine ⟨(VideoJs.runSteps pre p).videos[i], List.getElem?_eq_getElem hlen, ?_⟩
  rw [VideoJs.videojs_runSteps_append]
  show (VideoJs.runSteps post
    ((VideoJs.Step.observe i (es ++ [e])).apply (VideoJs.runSteps pre p))).videos[i]? = _
  rw [VideoJs.videojs_runSteps_video_of_not_observes i post _ hpost]
  simp only [VideoJs.Step.apply, List.getElem?_modify_eq, List.getElem?_eq_getElem hlen]
  rfl

/-- C11, evaluated on both two-card desktop pages (`script.js`; `main.js` with
`video.js`): the callback of card 0 reports intersecting at ratio 4/5 while card 0 is
current and starts its video; then the carousel moves to card 1. No step of the carousel
touches a video, so the video of card 0 is still playing although card 0 is no longer the
active slide. -/
theorem desktop_playback_invariant_fails :
    (ScriptJs.runSteps [.observe 0 [{ isIntersecting := true, intersectionRatio := 4 / 5 }],
      .next] ScriptJs.demoPage).videos[0]? = some { paused := false, currentTime := 0 } ∧
    (ScriptJs.runSteps [.observe 0 [{ isIntersecting := true, intersectionRatio := 4 / 5 }],
      .next] ScriptJs.demoPage).carousel.currentIndex = 1 ∧
    (ScriptJs.runSteps [.observe 0 [{ isIntersecting := true, intersectionRatio := 4 / 5 }],
      .next] ScriptJs.demoPage).carousel.cards.map (fun c => c.active) = [false, true] ∧
    (VideoJs.runSteps [.observe 0 [{ isIntersecting := true, intersectionRatio := 4 / 5 }],
      .op .goToNext] VideoJs.demoPage).videos[0]? = some { paused := false, currentTime := 0 } ∧
    (VideoJs.runSteps [.observe 0 [{ isIntersecting := true, intersectionRatio := 4 / 5 }],
      .op .goToNext] VideoJs.demoPage).carousel.currentIndex = 1 ∧
    (VideoJs.runSteps [.observe 0 [{ isIntersecting := true, intersectionRatio := 4 / 5 }],
      .op .goToNext] VideoJs.demoPage).carousel.cards.map (fun c => c.active) =
        [false, true] := by
  decide

/-! ## The hover pause -/

/-- On an owned table, `resumeAutoAdvance` on a controller that is not paused leaves
exactly the two intervals it starts, under the next two fresh handles. -/
theorem resumeAutoAdvance_running {s : Carousel} (hp : s.isPaused = false)
    (hown : TimersOwned s) :
    autoTimers (resumeAutoAdvance s) =
      [{ id := s.nextTimerId + 1, kind := .autoAdvance }] ∧
    progressTimers (resumeAutoAdvance s) = [progressTimer s 0] ∧
    (resumeAutoAdvance s).autoAdvanceInterval = some (s.nextTimerId + 1) ∧
    (resumeAutoAdvance s).progressInterval = some s.nextTimerId := by
  obtain ⟨-, -, -, -, h4, h5⟩ := pauseAutoAdvance_cleared hown
  have ha1 : ∀ t ∈ (resetProgress (pauseAutoAdvance s)).timers, t.kind.isAuto = false :=
    fun t ht => h4 t ((resetProgress_sublist _).subset ht)
  have hp1 : ∀ t ∈ (resetProgress (pauseAutoAdvance s)).timers,
      t.kind.isProgress = false :=
    fun t ht => h5 t ((resetProgress_sublist _).subset ht)
  have hr : resumeAutoAdvance s =
      { startAutoAdvance (pauseAutoAdvance s) with isPaused := false } := by
    simp [resumeAutoAdvance, hp]
  obtain ⟨ht, -, hpi, hai⟩ := startAutoAdvance_table (pauseAutoAdvance s)
  have htimers : (resumeAutoAdvance s).timers =
      (resetProgress (pauseAutoAdvance s)).timers ++
        [progressTimer s 0, { id := s.nextTimerId + 1, kind := .autoAdvance }] := by
    rw [hr]
    simpa [progressTimer] using ht
  refine ⟨?_, ?_, ?_, ?_⟩
  · unfold autoTimers
    rw [htimers, List.filter_append, List.filter_eq_nil_iff.2 (by
      intro t ht'; simp [ha1 t ht'])]
    rfl
  · unfold progressTimers
    rw [htimers, List.filter_append, List.filter_eq_nil_iff.2 (by
      intro t ht'; simp [hp1 t ht'])]
    rfl
  · rw [hr]; simpa using hai
  · rw [hr]; simpa using hpi

/-- C12: on a controller state whose timer table is owned, after `tempPauseAutoAdvance` no
auto-advance interval and no progress interval is live and both handles are `null`,
while `isPaused`, `currentIndex`, every card (its `active`, `prev` and `expanded`
classes) and every indicator are unchanged; a following `resumeAutoAdvance`, when
`isPaused = false`, leaves exactly one auto-advance interval and one progress interval
live, freshly started. -/
theorem tempPauseAutoAdvance_contract (s : Carousel) (hown : TimersOwned s) :
    autoTimers (tempPauseAutoAdvance s) = [] ∧
    progressTimers (tempPauseAutoAdvance s) = [] ∧
    (tempPauseAutoAdvance s).autoAdvanceInterval = none ∧
    (tempPauseAutoAdvance s).progressInterval = none ∧
    (tempPauseAutoAdvance s).isPaused = s.isPaused ∧
    (tempPauseAutoAdvance s).currentIndex = s.currentIndex ∧
    (tempPauseAutoAdvance s).cards = s.cards ∧
    (tempPauseAutoAdvance s).indicators = s.indicators ∧
    (s.isPaused = false →
      autoTimers (resumeAutoAdvance (tempPauseAutoAdvance s)) =
        [{ id := s.nextTimerId + 1, kind := .autoAdvance }] ∧
      progressTimers (resumeAutoAdvance (tempPauseAutoAdvance s)) =
        [{ id := s.nextTimerId,
           kind := .progress 0 (increment s.autoAdvanceDelay) }] ∧
      (resumeAutoAdvance (tempPauseAutoAdvance s)).autoAdvanceInterval =
        some (s.nextTimerId + 1) ∧
      (resumeAutoAdvance (tempPauseAutoAdvance s)).progressInterval =
        some s.nextTimerId ∧
      (resumeAutoAdvance (tempPauseAutoAdvance s)).isPaused = false) := by
  obtain ⟨h1, h2, h3, h4, h5⟩ := tempPauseAutoAdvance_cleared hown
  have hpaused : (tempPauseAutoAdvance s).isPaused = s.isPaused := by
    simp [tempPauseAutoAdvance]
  have hnext : (tempPauseAutoAdvance s).nextTimerId = s.nextTimerId := by
    simp [tempPauseAutoAdvance]
  have hdelay : (tempPauseAutoAdvance s).autoAdvanceDelay = s.autoAdvanceDelay := by
    simp [tempPauseAutoAdvance]
  refine ⟨autoTimers_eq_nil h4, progressTimers_eq_nil h5, h2, h3, hpaused,
    by simp [tempPauseAutoAdvance], by simp [tempPauseAutoAdvance],
    by simp [tempPauseAutoAdvance], ?_⟩
  intro hp
  obtain ⟨r1, r2, r3, r4⟩ := resumeAutoAdvance_running (hpaused.trans hp) h1
  rw [hnext] at r1 r3 r4
  refine ⟨r1, ?_, r3, r4, resumeAutoAdvance_isPaused _⟩
  rw [r2]
  simp [progressTimer, hnext, hdelay]

/-- Witness for C12: the running controller of the two-card page owns its timers; the
hover pause stops the intervals 1 and 2 and the resume starts 3 and 4. -/
theorem tempPauseAutoAdvance_contract_witness :
    autoTimers (tempPauseAutoAdvance (construct demoDom)) = [] ∧
    (tempPauseAutoAdvance (construct demoDom)).autoAdvanceInterval = none ∧
    autoTimers (resumeAutoAdvance (tempPauseAutoAdvance (construct demoDom))) =
      [{ id := 4, kind := .autoAdvance }] :=
  have h := tempPauseAutoAdvance_contract (construct demoDom) (owned_construct demoDom)
  ⟨h.1, h.2.2.1, (h.2.2.2.2.2.2.2.2 (by decide)).1⟩

/-! ## The transient marker and the range of the current index -/

/-- The callback of a 600 ms timeout only touches the card at the index current when it
runs: every other card is left as it is. -/
theorem fire_prevTimeout_other (s : Carousel) (id : Nat) (t : Timer)
    (hf : s.timers.find? (fun u => u.id == id) = some t) (hk : t.kind = .prevTimeout)
    (j : Nat) (hj : j ≠ s.currentIndex) :
    (settle (fire id s)).cards[j]? = s.cards[j]? := by
  unfold fire
  rw [hf]
  simp only [hk]
  split
  · simp only [settle]
    exact List.getElem?_modify_ne _ _ (Ne.symm hj)
  · rfl

/-- C13, evaluated on the two-card page right after construction (slide 0 active):
`goToSlide 1` puts `prev` on card 0 and schedules the timeout under handle 3; when that
timeout fires, with no navigation in between, it removes `prev` from the card at the
current index, card 1, and card 0 still carries `prev`. -/
theorem prev_marker_survives_timeout :
    (construct demoDom).currentIndex = 0 ∧
    (settle (goToSlide 1 (construct demoDom))).currentIndex = 1 ∧
    (settle (goToSlide 1 (construct demoDom))).cards.map (fun c => c.prev) = [true, false] ∧
    (settle (goToSlide 1 (construct demoDom))).timers.map
      (fun t => (t.id, decide (t.kind = .prevTimeout))) = [(3, true), (4, false), (5, false)] ∧
    (settle (fire 3 (settle (goToSlide 1 (construct demoDom))))).timers.map (fun t => t.id) =
      [4, 5] ∧
    (settle (fire 3 (settle (goToSlide 1 (construct demoDom))))).cards.map (fun c => c.prev) =
      [true, false] := by
  decide

/-- With the current index and the target both card positions, `goToSlide` leaves the
current index a card position and keeps the number of cards. -/
theorem inRange_goToSlide {s : Carousel} {k : Nat} (hcur : s.currentIndex < s.cards.length)
    (hk : k < s.cards.length) :
    (settle (goToSlide k s)).currentIndex < (settle (goToSlide k s)).cards.length ∧
    (settle (goToSlide k s)).cards.length = s.cards.length := by
  obtain ⟨-, hidx, hcards, -⟩ := goToSlide_ok s k hcur hk
  have hlen : (settle (goToSlide k s)).cards.length = s.cards.length := by
    rw [hcards]; simp
  exact ⟨by rw [hidx, hlen]; exact hk, hlen⟩

/-- A timer callback leaves the current index a card position and keeps the number of
cards. -/
theorem inRange_fire {s : Carousel} (hcur : s.currentIndex < s.cards.length) (id : Nat) :
    (settle (fire id s)).currentIndex < (settle (fire id s)).cards.length ∧
    (settle (fire id s)).cards.length = s.cards.length := by
  unfold fire
  split
  · exact ⟨hcur, rfl⟩
  · split
    · exact inRange_goToSlide hcur (nextIndex_lt s (by omega))
    · exact ⟨hcur, rfl⟩
    · dsimp only
      rw [if_pos hcur]
      simp only [settle, List.length_modify]
      exact ⟨hcur, trivial⟩

/-- With no more indicators than cards, a click on a navigation button or on an
indicator and a timer callback leave the current index a card position. -/
theorem inRange_apply {s : Carousel} {m : Nat} (hm : m ≤ s.cards.length)
    (hcur : s.currentIndex < s.cards.length) (o : Op) (ho : o.isUserNav m = true) :
    (o.apply s).currentIndex < (o.apply s).cards.length ∧
    (o.apply s).cards.length = s.cards.length := by
  cases o with
  | goToSlide k =>
    have hk : k < m := by simpa [Op.isUserNav] using ho
    exact inRange_goToSlide hcur (Nat.lt_of_lt_of_le hk hm)
  | goToNext => exact inRange_goToSlide hcur (nextIndex_lt s (by omega))
  | goToPrevious => exact inRange_goToSlide hcur (prevIndex_lt s (by omega))
  | tick id => exact inRange_fire hcur id
  | toggle i => cases ho
  | pauseAutoAdvance => cases ho
  | tempPauseAutoAdvance => cases ho
  | resumeAutoAdvance => cases ho
  | mouseenter => cases ho
  | mouseleave => cases ho

/-- With no more indicators than cards, every sequence of clicks on the navigation
buttons and the indicators and of timer callbacks leaves the current index a card
position. -/
theorem inRange_run {s : Carousel} {m : Nat} (hm : m ≤ s.cards.length)
    (hcur : s.currentIndex < s.cards.length) (ops : List Op)
    (hops : ∀ o ∈ ops, o.isUserNav m = true) :
    (run ops s).currentIndex < (run ops s).cards.length ∧
    (run ops s).cards.length = s.cards.length := by
  induction ops generalizing s with
  | nil => exact ⟨hcur, rfl⟩
  | cons o os ih =>
    obtain ⟨h1, h2⟩ := inRange_apply hm hcur o (hops o (List.mem_cons_self _ _))
    obtain ⟨h3, h4⟩ := ih (s := o.apply s) (by rw [h2]; exact hm) h1
      (fun x hx => hops x (List.mem_cons_of_mem _ hx))
    exact ⟨h3, h4.trans h2⟩

/-- The cards and the current index right after construction. -/
theorem construct_cards (d : Dom) :
    (construct d).cards = d.cards ∧ (construct d).currentIndex = 0 := by
  unfold construct
  split <;> simp [constructFields]

/-- On a page with at least one card and, after construction, no more indicators than
cards, the current index is a card position in every state reached through clicks on the
navigation buttons and the indicators and timer callbacks. -/
theorem currentIndex_lt_of_indicators_le (d : Dom) (hN : d.cards ≠ [])
    (hM : (construct d).indicators.length ≤ d.cards.length) (ops : List Op)
    (hops : ∀ o ∈ ops, o.isUserNav (construct d).indicators.length = true) :
    (run ops (construct d)).currentIndex < d.cards.length := by
  obtain ⟨hc, hi⟩ := construct_cards d
  have hpos : 0 < d.cards.length := List.length_pos.2 hN
  have h := inRange_run (s := construct d) (m := (construct d).indicators.length)
    (by rw [hc]; exact hM) (by rw [hc, hi]; exact hpos) ops hops
  rw [h.2, hc] at h
  exact h.1

/-- C14, evaluated on a page with one card and two indicator buttons in the markup: the
click on the second indicator calls `goToSlide 1`, which sets `currentIndex = 1` and then
throws on the undefined card; from then on `currentIndex` is not a card position, the
lookup of the hover handlers is undefined, and no click brings the index back. -/
theorem currentIndex_leaves_range :
    (construct surplusDom).cards.length = 1 ∧
    (construct surplusDom).indicators.length = 2 ∧
    (Op.goToSlide 1).isUserNav (construct surplusDom).indicators.length = true ∧
    (goToSlide 1 (construct surplusDom)).isOk = false ∧
    (run [.goToSlide 1] (construct surplusDom)).currentIndex = 1 ∧
    (run [.goToSlide 1] (construct surplusDom)).cards[1]? = none ∧
    isExpanded (run [.goToSlide 1] (construct surplusDom)) = none ∧
    (mouseenter (run [.goToSlide 1] (construct surplusDom))).isOk = false ∧
    (run [.goToSlide 1, .goToNext, .goToPrevious, .goToSlide 0, .tick 2]
      (construct surplusDom)).currentIndex = 1 := by
  decide

/-! ## Two ways of reading the active index -/

/-- `getCurrentIndex` computes the position the specification describes. -/
theorem VideoJs.getCurrentIndex_eq_firstActiveOrZero (cards : List Card) :
    VideoJs.getCurrentIndex cards = VideoJs.firstActiveOrZero cards := by
  induction cards with
  | nil => rfl
  | cons c cs ih =>
    unfold VideoJs.getCurrentIndex at ih ⊢
    by_cases hc : c.active = true
    · simp [VideoJs.firstActiveOrZero, hc, List.findIdx_cons]
    · have hc' : c.active = false := by simpa using hc
      by_cases hany : cs.any (fun x => x.active) = true
      · rw [if_pos hany] at ih
        simp only [VideoJs.firstActiveOrZero, hc', List.any_cons, Bool.false_or, hany,
          if_true, List.findIdx_cons, cond_false, ih]
        simp
      · rw [if_neg hany] at ih
        simp only [VideoJs.firstActiveOrZero, hc', List.any_cons, Bool.false_or, hany]
        simp

/-- With no card carrying `active`, `getCurrentIndex` returns `0`. -/
theorem VideoJs.getCurrentIndex_of_none (cards : List Card)
    (h : ∀ x ∈ cards, x.active = false) : VideoJs.getCurrentIndex cards = 0 := by
  unfold VideoJs.getCurrentIndex
  have hany : ¬ cards.any (fun c => c.active) = true := by
    simp only [List.any_eq_true, not_exists, not_and]
    intro x hx
    simp [h x hx]
  rw [if_neg hany]

/-- With `active` on the card at `p` and on no card before it, `getCurrentIndex` returns
`p`. -/
theorem VideoJs.getCurrentIndex_of_first (cards : List Card) (p : Nat)
    (hp : p < cards.length) (hact : cards[p].active = true)
    (hbefore : ∀ j, j < p → ∀ card, cards[j]? = some card → card.active = false) :
    VideoJs.getCurrentIndex cards = p := by
  unfold VideoJs.getCurrentIndex
  have hany : cards.any (fun c => c.active) = true :=
    List.any_eq_true.2 ⟨cards[p], List.getElem_mem _, hact⟩
  rw [if_pos hany]
  exact (List.findIdx_eq hp).2
    ⟨hact, fun j hj => hbefore j hj _ (List.getElem?_eq_getElem (Nat.lt_trans hj hp))⟩

/-- With `active` on exactly the card at `k`, `getCurrentIndex` returns `k`. -/
theorem VideoJs.getCurrentIndex_of_unique (cards : List Card) (k : Nat)
    (hk : k < cards.length)
    (hact : ∀ i card, cards[i]? = some card → (card.active = true ↔ i = k)) :
    VideoJs.getCurrentIndex cards = k := by
  apply VideoJs.getCurrentIndex_of_first cards k hk
  · exact (hact k cards[k] (List.getElem?_eq_getElem hk)).2 rfl
  · intro j hj card hcard
    cases h : card.active
    · rfl
    · have := (hact j card hcard).1 h
      omega

/-- C15: `getCurrentIndex` of `video.js` returns the position of the first card carrying
the active marker, or `0` when no card carries it; so whenever the active marker is on
exactly the card at the carousel's `currentIndex`, `getCurrentIndex() = currentIndex` and
the observer callbacks of `video.js` leave, for every card position, every batch of
entries and every prior state, the same video (and overlay) state as the callbacks of
`script.js` that read `currentIndex`. -/
theorem active_index_readings_agree (cards : List Card) :
    VideoJs.getCurrentIndex cards = VideoJs.firstActiveOrZero cards ∧
    ((∀ x ∈ cards, x.active = false) → VideoJs.getCurrentIndex cards = 0) ∧
    (∀ p (hp : p < cards.length), cards[p].active = true →
      (∀ j, j < p → ∀ card, cards[j]? = some card → card.active = false) →
      VideoJs.getCurrentIndex cards = p) ∧
    (∀ c : ScriptJs.Carousel, c.cards = cards → c.currentIndex < cards.length →
      (∀ i card, cards[i]? = some card → (card.active = true ↔ i = c.currentIndex)) →
      VideoJs.getCurrentIndex cards = c.currentIndex ∧
      (∀ i es v, VideoJs.desktopObserver i cards es v = ScriptJs.desktopObserver i c es v) ∧
      (∀ i es b, VideoJs.mobileObserver i cards es b = ScriptJs.mobileObserver i c es b)) := by
  refine ⟨VideoJs.getCurrentIndex_eq_firstActiveOrZero cards,
    VideoJs.getCurrentIndex_of_none cards,
    fun p hp => VideoJs.getCurrentIndex_of_first cards p hp, ?_⟩
  intro c _ hcur hact
  have hidx := VideoJs.getCurrentIndex_of_unique cards c.currentIndex hcur hact
  refine ⟨hidx, ?_, ?_⟩
  · intro i es v
    have hfun : VideoJs.desktopEntry i cards = ScriptJs.desktopEntry i c := by
      funext v e
      simp only [VideoJs.desktopEntry, ScriptJs.desktopEntry, hidx]
    simp only [VideoJs.desktopObserver, ScriptJs.desktopObserver, hfun]
  · intro i es b
    have hfun : VideoJs.mobileEntry i cards = ScriptJs.mobileEntry i c := by
      funext b e
      simp only [VideoJs.mobileEntry, ScriptJs.mobileEntry, hidx]
    simp only [VideoJs.mobileObserver, ScriptJs.mobileObserver, hfun]

/-- Witness for C15: on the two cards of the demo page, the first active, `getCurrentIndex`
returns the current index 0 of the `script.js` carousel. -/
theorem active_index_readings_agree_witness :
    VideoJs.getCurrentIndex demoDom.cards = ScriptJs.demoPage.carousel.currentIndex :=
  ((active_index_readings_agree demoDom.cards).2.2.2 ScriptJs.demoPage.carousel rfl
    (by decide)
    (by
      intro i card h
      match i, h with
      | 0, h => cases h; decide
      | 1, h => cases h; decide
      | (n + 2), h => simp [demoDom] at h)).1

end Slands
